import Mathlib

/-!
Verification development for the eduujoy-ui repository.

This file shallowly embeds the core logic of the repository:
the Gemini summarization pipeline (`src/pages/api/summarize.js`),
the TTL cache (`src/lib/cache.js`), the sliding-window rate limiter,
the n8n learning-plan webhook (`src/app/api/learning-callback/route.ts`
together with `src/lib/learningDataStore.ts`), and the client polling
loop (`src/app/page.tsx`).  JavaScript dynamic values are modelled by
a `Json` inductive type; `JSON.parse` is modelled by a fuel-bounded
recursive descent parser over the JSON grammar; machine time is
modelled as integer milliseconds.
-/

namespace EduuJoy

/-- JSON values as produced by a JavaScript `JSON.parse` call.  Numeric
literals are kept as their source text, which is enough for the claims in
this development (no numeric arithmetic is performed on parsed values). -/
inductive Json where
  | null : Json
  | bool (b : Bool) : Json
  | num (lit : String) : Json
  | str (s : String) : Json
  | arr (elems : List Json) : Json
  | obj (fields : List (String × Json)) : Json
deriving Inhabited

/-- The double-quote character. -/
def quoteChar : Char := Char.ofNat 34

/-- The backslash character. -/
def backslashChar : Char := Char.ofNat 92

/-- The opening curly brace character. -/
def openBraceChar : Char := Char.ofNat 123

/-- The closing curly brace character. -/
def closeBraceChar : Char := Char.ofNat 125

/-- The opening square bracket character. -/
def openBrackChar : Char := Char.ofNat 91

/-- The closing square bracket character. -/
def closeBrackChar : Char := Char.ofNat 93

/-- The comma character. -/
def commaChar : Char := Char.ofNat 44

/-- The colon character. -/
def colonChar : Char := Char.ofNat 58

/-- The forward slash character. -/
def slashChar : Char := Char.ofNat 47

/-- JSON whitespace characters (space, tab, newline, carriage return). -/
def isJsonWs (c : Char) : Bool :=
  c.toNat = 32 || c.toNat = 9 || c.toNat = 10 || c.toNat = 13

/-- Drop leading JSON whitespace. -/
def skipWs : List Char → List Char
  | [] => []
  | c :: cs => if isJsonWs c then skipWs cs else c :: cs

/-- Value of a hexadecimal digit. -/
def hexVal (c : Char) : Option Nat :=
  if c.isDigit then some (c.toNat - 48)
  else if 97 ≤ c.toNat ∧ c.toNat ≤ 102 then some (c.toNat - 87)
  else if 65 ≤ c.toNat ∧ c.toNat ≤ 70 then some (c.toNat - 55)
  else none

/-- Match an exact keyword prefix, returning the rest of the input. -/
def dropKeyword : List Char → List Char → Option (List Char)
  | [], cs => some cs
  | _ :: _, [] => none
  | k :: ks, c :: cs => if c = k then dropKeyword ks cs else none

/-- Parse the body of a JSON string literal (the opening quote already
consumed), handling the escape sequences accepted by `JSON.parse`. -/
def parseStringBody : Nat → List Char → List Char → Option (String × List Char)
  | 0, _, _ => none
  | Nat.succ _, [], _ => none
  | Nat.succ fuel, c :: cs, acc =>
    if c = quoteChar then some (String.mk acc.reverse, cs)
    else if c = backslashChar then
      match cs with
      | [] => none
      | e :: rest =>
        if e = quoteChar then parseStringBody fuel rest (quoteChar :: acc)
        else if e = backslashChar then parseStringBody fuel rest (backslashChar :: acc)
        else if e = slashChar then parseStringBody fuel rest (slashChar :: acc)
        else if e = 'b' then parseStringBody fuel rest (Char.ofNat 8 :: acc)
        else if e = 'f' then parseStringBody fuel rest (Char.ofNat 12 :: acc)
        else if e = 'n' then parseStringBody fuel rest (Char.ofNat 10 :: acc)
        else if e = 'r' then parseStringBody fuel rest (Char.ofNat 13 :: acc)
        else if e = 't' then parseStringBody fuel rest (Char.ofNat 9 :: acc)
        else if e = 'u' then
          match rest with
          | a :: b :: c2 :: d :: rest2 =>
            match hexVal a, hexVal b, hexVal c2, hexVal d with
            | some ha, some hb, some hc, some hd =>
              parseStringBody fuel rest2
                (Char.ofNat (((ha * 16 + hb) * 16 + hc) * 16 + hd) :: acc)
            | _, _, _, _ => none
          | _ => none
        else none
    else if c.toNat < 32 then none
    else parseStringBody fuel cs (c :: acc)

/-- Take a maximal run of leading decimal digits. -/
def takeDigits : List Char → List Char × List Char
  | [] => ([], [])
  | c :: cs =>
    if c.isDigit then
      let p := takeDigits cs
      (c :: p.1, p.2)
    else ([], c :: cs)

/-- Parse the integer part of a JSON number (no leading zeros except a
lone zero). -/
def parseIntDigits : List Char → Option (List Char × List Char)
  | [] => none
  | c :: cs =>
    if c.toNat = 48 then some ([c], cs)
    else if c.isDigit then
      let p := takeDigits cs
      some (c :: p.1, p.2)
    else none

/-- Parse an optional fraction part of a JSON number. -/
def parseFracDigits (cs : List Char) : Option (List Char × List Char) :=
  match cs with
  | [] => some ([], [])
  | c :: rest =>
    if c.toNat = 46 then
      let p := takeDigits rest
      if p.1.isEmpty then none else some (c :: p.1, p.2)
    else some ([], c :: rest)

/-- Parse an optional exponent part of a JSON number. -/
def parseExpDigits (cs : List Char) : Option (List Char × List Char) :=
  match cs with
  | [] => some ([], [])
  | c :: rest =>
    if c = 'e' ∨ c = 'E' then
      match rest with
      | [] => none
      | s :: rest2 =>
        if s.toNat = 43 ∨ s.toNat = 45 then
          let p := takeDigits rest2
          if p.1.isEmpty then none else some (c :: s :: p.1, p.2)
        else
          let p := takeDigits rest
          if p.1.isEmpty then none else some (c :: p.1, p.2)
    else some ([], c :: rest)

/-- Parse a JSON numeric literal, returning its source text. -/
def parseNumberLit (cs : List Char) : Option (List Char × List Char) :=
  let signed :=
    match cs with
    | c :: rest => if c.toNat = 45 then (([c] : List Char), rest) else (([] : List Char), cs)
    | [] => (([] : List Char), ([] : List Char))
  match parseIntDigits signed.2 with
  | none => none
  | some (ip, r1) =>
    match parseFracDigits r1 with
    | none => none
    | some (fp, r2) =>
      match parseExpDigits r2 with
      | none => none
      | some (ep, r3) => some (signed.1 ++ ip ++ fp ++ ep, r3)

mutual

/-- Parse one JSON value.  Fuel bounds the recursion depth; the top level
supplies fuel larger than the input length, which is always sufficient
because every recursive step consumes at least one input character. -/
def parseJsonValue : Nat → List Char → Option (Json × List Char)
  | 0, _ => none
  | Nat.succ fuel, cs =>
    match cs with
    | [] => none
    | c :: rest =>
      if c = quoteChar then
        match parseStringBody (rest.length + 1) rest [] with
        | some (s, r) => some (Json.str s, r)
        | none => none
      else if c = openBraceChar then
        let r := skipWs rest
        match r with
        | [] => none
        | d :: r2 =>
          if d = closeBraceChar then some (Json.obj [], r2)
          else parseJsonFields fuel r []
      else if c = openBrackChar then
        let r := skipWs rest
        match r with
        | [] => none
        | d :: r2 =>
          if d = closeBrackChar then some (Json.arr [], r2)
          else parseJsonElems fuel r []
      else if c = 'n' then
        match dropKeyword ['u', 'l', 'l'] rest with
        | some r => some (Json.null, r)
        | none => none
      else if c = 't' then
        match dropKeyword ['r', 'u', 'e'] rest with
        | some r => some (Json.bool true, r)
        | none => none
      else if c = 'f' then
        match dropKeyword ['a', 'l', 's', 'e'] rest with
        | some r => some (Json.bool false, r)
        | none => none
      else
        match parseNumberLit cs with
        | some (lit, r) => some (Json.num (String.mk lit), r)
        | none => none

/-- Parse the elements of a JSON array after the opening bracket. -/
def parseJsonElems : Nat → List Char → List Json → Option (Json × List Char)
  | 0, _, _ => none
  | Nat.succ fuel, cs, acc =>
    match parseJsonValue fuel cs with
    | none => none
    | some (v, r) =>
      match skipWs r with
      | [] => none
      | d :: r2 =>
        if d = closeBrackChar then some (Json.arr (acc ++ [v]), r2)
        else if d = commaChar then parseJsonElems fuel (skipWs r2) (acc ++ [v])
        else none

/-- Parse the members of a JSON object after the opening brace. -/
def parseJsonFields : Nat → List Char → List (String × Json) →
    Option (Json × List Char)
  | 0, _, _ => none
  | Nat.succ fuel, cs, acc =>
    match cs with
    | [] => none
    | c :: rest =>
      if c = quoteChar then
        match parseStringBody (rest.length + 1) rest [] with
        | none => none
        | some (k, r) =>
          match skipWs r with
          | [] => none
          | d :: r2 =>
            if d = colonChar then
              match parseJsonValue fuel (skipWs r2) with
              | none => none
              | some (v, r3) =>
                match skipWs r3 with
                | [] => none
                | e :: r4 =>
                  if e = closeBraceChar then some (Json.obj (acc ++ [(k, v)]), r4)
                  else if e = commaChar then parseJsonFields fuel (skipWs r4) (acc ++ [(k, v)])
                  else none
            else none
      else none

end

/-- Model of the JavaScript `JSON.parse`: leading and trailing whitespace
is permitted, any other trailing input is an error. -/
def jsonParse (s : String) : Option Json :=
  match parseJsonValue (s.length + 1) (skipWs s.toList) with
  | none => none
  | some (v, r) => if (skipWs r).isEmpty then some v else none

/-!
Embedding of `src/pages/api/summarize.js`.
-/

/-- Result record of `truncateTranscript`. -/
structure TruncateResult where
  transcript : String
  isTruncated : Bool
deriving Repr, DecidableEq

/-- Index of the first occurrence of a character. -/
def findIdxOfChar (c : Char) : List Char → Option Nat
  | [] => none
  | d :: ds => if d = c then some 0 else (findIdxOfChar c ds).map (· + 1)

/-- Index of the last occurrence of a character in a list, as in the
JavaScript `String.lastIndexOf` (absent is modelled by `none` instead of
the sentinel `-1`). -/
def lastIndexOfChar (cs : List Char) (c : Char) : Option Nat :=
  match findIdxOfChar c cs.reverse with
  | none => none
  | some i => some (cs.length - 1 - i)

/-- The period character. -/
def periodChar : Char := Char.ofNat 46

/-- Model of `truncateTranscript` from `src/pages/api/summarize.js`.
The JavaScript comparison `lastPeriod > maxChars * 0.9` multiplies in
floating point; both operands derive from integers, so for realistic
sizes it coincides with the exact comparison `10 * lastPeriod > 9 *
maxChars` used here.  A missing period gives `lastIndexOf = -1`, which
never exceeds `0.9 * maxChars`; that is the `none` branch. -/
def truncateTranscript (transcript : String) (maxChars : Nat) : TruncateResult :=
  if transcript.length ≤ maxChars then ⟨transcript, false⟩
  else
    let truncated := String.mk (transcript.toList.take maxChars)
    match lastIndexOfChar truncated.toList periodChar with
    | some lastPeriod =>
      if 10 * lastPeriod > 9 * maxChars then
        ⟨String.mk (truncated.toList.take (lastPeriod + 1)), true⟩
      else ⟨truncated, true⟩
    | none => ⟨truncated, true⟩

/-- Extraction of the block matched by the regular expression pattern
`\x7b[\s\S]*\x7d` in `extractJSON`: the match, when it exists, runs from
the first opening brace to the last closing brace of the text (the
leftmost possible start, with a greedy middle). -/
def extractBraceBlock (s : String) : Option String :=
  let cs := s.toList
  match findIdxOfChar openBraceChar cs with
  | none => none
  | some i =>
    match findIdxOfChar closeBraceChar cs.reverse with
    | none => none
    | some jr =>
      let j := cs.length - 1 - jr
      if i < j then some (String.mk ((cs.drop i).take (j + 1 - i))) else none

/-- Model of `extractJSON` from `src/pages/api/summarize.js`: direct
`JSON.parse` first, then `JSON.parse` of the brace-delimited block, else
`null` (modelled by `none`).  A falsy (empty) input returns `null`
immediately. -/
def extractJSON (text : String) : Option Json :=
  if text = "" then none
  else
    match jsonParse text with
    | some v => some v
    | none =>
      match extractBraceBlock text with
      | none => none
      | some block => jsonParse block

/-- Whether a JSON numeric literal denotes zero (its mantissa digits are
all zero). -/
def numLitIsZero (lit : String) : Bool :=
  ((lit.toList.takeWhile (fun c => c ≠ 'e' ∧ c ≠ 'E')).filter
    (fun c => c.isDigit)).all (fun c => c.toNat = 48)

/-- JavaScript truthiness of a JSON value. -/
def jsTruthy : Json → Bool
  | .null => false
  | .bool b => b
  | .num lit => !(numLitIsZero lit)
  | .str s => !s.isEmpty
  | .arr _ => true
  | .obj _ => true

/-- JavaScript property access on a parsed JSON value: objects yield the
value of the last binding of the key (as `JSON.parse` does for duplicate
keys), anything else yields `undefined` (modelled by `none`). -/
def getField (v : Json) (k : String) : Option Json :=
  match v with
  | .obj fields => fields.foldl (fun acc p => if p.1 = k then some p.2 else acc) none
  | _ => none

/-- One part of a Gemini candidate content. -/
structure GeminiPart where
  text : String

/-- The content of a Gemini candidate. -/
structure GeminiContent where
  parts : List GeminiPart

/-- One candidate of a Gemini API response; a missing `content` is
`none`. -/
structure GeminiCandidate where
  content : Option GeminiContent

/-- Body of a successful Gemini API response; a missing `candidates`
field and an empty array behave identically in the source and are both
modelled by `[]`. -/
structure GeminiResponse where
  candidates : List GeminiCandidate

/-- Outcome of one `fetch` attempt against the Gemini endpoint. -/
inductive FetchOutcome where
  | ok (resp : GeminiResponse)
  | httpErr (status : Nat)
  | netErr (msg : String)

/-- The error message thrown for a failed attempt, as in
`callGeminiAPI`.  The upstream detail text appended to the generic
message is not modelled. -/
def geminiErrMsg : FetchOutcome → String
  | .ok _ => ""
  | .httpErr s =>
    if s = 429 then "Rate limited by Gemini API"
    else if s = 401 then "Invalid Gemini API key"
    else if s = 403 then "Gemini API quota exceeded"
    else "Gemini API error (" ++ toString s ++ ")"
  | .netErr m => m

/-- Trace of one `callGeminiAPI` run: the returned value or thrown
error, the number of upstream fetch attempts performed, and the backoff
delays (milliseconds) awaited between attempts, in order. -/
structure CallTrace where
  result : Except String GeminiResponse
  attemptsMade : Nat
  delays : List Nat

/-- Recursive core of `callGeminiAPI`: the loop
`for (attempt = 0; attempt <= retries; attempt++)`.  A 429 inside the
`try` delays `2 ^ attempt * 1000` and continues when `attempt < retries`
and otherwise throws; every other failure (including 401 and 403, whose
throws are caught by the same `catch`) is retried after the identical
delay when `attempt < retries`.  Fuel `retries + 1 - attempt` makes the
recursion structural; the zero-fuel branch models the unreachable
`throw lastError || new Error(..)` fallback. -/
def callGeminiAux (outcomes : Nat → FetchOutcome) (retries : Nat) :
    Nat → Nat → List Nat → CallTrace
  | 0, attempt, delaysAcc =>
    { result := .error "Failed to call Gemini API", attemptsMade := attempt,
      delays := delaysAcc.reverse }
  | Nat.succ fuel, attempt, delaysAcc =>
    match outcomes attempt with
    | .ok resp =>
      { result := .ok resp, attemptsMade := attempt + 1, delays := delaysAcc.reverse }
    | o =>
      if attempt < retries then
        callGeminiAux outcomes retries fuel (attempt + 1) (1000 * 2 ^ attempt :: delaysAcc)
      else
        { result := .error (geminiErrMsg o), attemptsMade := attempt + 1,
          delays := delaysAcc.reverse }

/-- Model of `callGeminiAPI`: attempt outcomes are supplied by the
oracle `outcomes` (attempt index to outcome); `retries` defaults to 2 in
the source. -/
def callGeminiAPI (outcomes : Nat → FetchOutcome) (retries : Nat) : CallTrace :=
  callGeminiAux outcomes retries (retries + 1) 0 []

/-- Whether a Gemini call result is a returned value rather than a
thrown error. -/
def exceptIsOk : Except String GeminiResponse → Bool
  | .ok _ => true
  | .error _ => false

/-- Whether a fetch outcome takes the failure path of the loop body. -/
def fetchFailed : FetchOutcome → Bool
  | .ok _ => false
  | .httpErr _ => true
  | .netErr _ => true

/-- The structured data assembled by `parseGeminiResponse`. -/
structure SummaryData where
  summary : Json
  takeaways : List Json
  actions : List Json

/-- Result of `parseGeminiResponse`: the `success`/`data`/`rawText`
object or the `success: false` error object. -/
inductive GeminiParseResult where
  | success (data : SummaryData) (rawText : String)
  | failure (error : String)

/-- Model of `parseGeminiResponse` from `src/pages/api/summarize.js`.
The check `if (!parsed) throw ..` rejects both a `null` result of
`extractJSON` and a falsy parsed value, hence the `jsTruthy` guard. -/
def parseGeminiResponse (apiResponse : GeminiResponse) : GeminiParseResult :=
  match apiResponse.candidates with
  | [] => .failure "No candidates in Gemini response"
  | candidate :: _ =>
    match candidate.content with
    | none => .failure "No content in Gemini response"
    | some content =>
      match content.parts with
      | [] => .failure "No content in Gemini response"
      | part :: _ =>
        let text := part.text
        match extractJSON text with
        | none => .failure "Could not parse JSON from Gemini response"
        | some parsed =>
          if jsTruthy parsed then
            let summary :=
              match getField parsed "summary" with
              | some v => if jsTruthy v then v else Json.str "Unable to generate summary"
              | none => Json.str "Unable to generate summary"
            let takeaways :=
              match getField parsed "takeaways" with
              | some (Json.arr xs) => xs
              | _ => []
            let actions :=
              match getField parsed "actions" with
              | some (Json.arr xs) => xs
              | _ => []
            .success ⟨summary, takeaways, actions⟩ text
          else .failure "Could not parse JSON from Gemini response"

/-!
Embedding of `src/lib/cache.js` (class `CacheStore`).
-/

/-- One cache entry: the stored value and its absolute expiry time in
milliseconds. -/
structure CacheEntry (α : Type) where
  value : α
  expiresAt : Int

/-- The backing `Map` of a `CacheStore`, as an association list.  The
source replaces an existing key in place; re-insertion order is not
observable through `get` or `size` and is not preserved here. -/
def CacheMap (α : Type) : Type := List (String × CacheEntry α)

/-- Model of `CacheStore.set`. -/
def cacheSet {α : Type} (m : CacheMap α) (key : String) (value : α)
    (ttlSec : Nat) (now : Int) : CacheMap α :=
  m.filter (fun p => p.1 ≠ key) ++ [(key, ⟨value, now + ttlSec * 1000⟩)]

/-- Model of `CacheStore.get`: the value when present and unexpired;
an expired entry is deleted and `null` (here `none`) returned. -/
def cacheGet {α : Type} (m : CacheMap α) (key : String) (now : Int) :
    Option α × CacheMap α :=
  match m.find? (fun p => p.1 = key) with
  | none => (none, m)
  | some p =>
    if now > p.2.expiresAt then (none, m.filter (fun q => q.1 ≠ key))
    else (some p.2.value, m)

/-- Model of `CacheStore.size`. -/
def cacheSize {α : Type} (m : CacheMap α) : Nat := m.length

/-!
Embedding of the rate limiter (`checkRateLimit`).
-/

/-- The `requestCounts` map: identifier to recorded timestamps
(milliseconds); `none` means the key is absent. -/
def RateMap : Type := String → Option (List Int)

/-- Model of `checkRateLimit`.  A missing key is first initialised to an
empty list; timestamps outside the trailing window are filtered out; at
or above the limit the call is rejected without writing the filtered
list back; otherwise the pruned list with the current time appended is
stored. -/
def checkRateLimit (m : RateMap) (identifier : String) (limit : Nat)
    (windowSec : Nat) (now : Int) : Bool × RateMap :=
  let m1 : RateMap := fun k =>
    if k = identifier then some ((m identifier).getD []) else m k
  let timestamps := (m identifier).getD []
  let filtered := timestamps.filter (fun ts => now - ts < (windowSec : Int) * 1000)
  if limit ≤ filtered.length then (false, m1)
  else (true, fun k => if k = identifier then some (filtered ++ [now]) else m1 k)

/-- The empty `requestCounts` map. -/
def emptyRateMap : RateMap := fun _ => none

/-- Fold a sequence of `checkRateLimit` calls for one identifier at the
given times, collecting the returned booleans. -/
def runRateChecks (identifier : String) (limit windowSec : Nat) :
    RateMap → List Int → List Bool × RateMap
  | m, [] => ([], m)
  | m, t :: ts =>
    let r := checkRateLimit m identifier limit windowSec t
    let rest := runRateChecks identifier limit windowSec r.2 ts
    (r.1 :: rest.1, rest.2)

/-!
Embedding of the `summarize` request handler (`export default async
function handler` in `src/pages/api/summarize.js`).
-/

/-- Whether the first list is a prefix of the second. -/
def isPrefixOfChars : List Char → List Char → Bool
  | [], _ => true
  | _ :: _, [] => false
  | a :: as2, b :: bs => a = b && isPrefixOfChars as2 bs

/-- Naive substring containment on character lists. -/
def containsSubChars (sub : List Char) : List Char → Bool
  | [] => sub.isEmpty
  | c :: cs => isPrefixOfChars sub (c :: cs) || containsSubChars sub cs

/-- Model of the JavaScript `String.includes`. -/
def containsSub (hay sub : String) : Bool :=
  containsSubChars sub.toList hay.toList

/-- First truthy value of a chain of `||` over possibly-undefined
strings, with a final default. -/
def firstTruthyString : List (Option String) → String → String
  | [], dflt => dflt
  | o :: rest, dflt =>
    match o with
    | some s => if s.isEmpty then firstTruthyString rest dflt else s
    | none => firstTruthyString rest dflt

/-- The `metadata` object accepted by the summarize endpoint. -/
structure SummarizeMetadata where
  title : String
  description : String
  url : String

/-- The request seen by the summarize handler.  Absent (undefined) body
fields and headers are `none`. -/
structure SummarizeRequest where
  method : String
  headerForwardedFor : Option String
  headerRealIp : Option String
  socketAddr : Option String
  videoId : Option String
  transcript : Option String
  title : Option String
  videoUrl : Option String
  metadata : Option SummarizeMetadata

/-- Model of `getClientIp` from the rate limiter module: first entry of
the forwarded-for header, then the real-ip header, then the socket
address, else the sentinel bucket. -/
def getClientIp (req : SummarizeRequest) : String :=
  firstTruthyString
    [req.headerForwardedFor.map (fun h => (h.splitOn ",").headD ""),
     req.headerRealIp, req.socketAddr] "unknown"

/-- Server-side configuration of the summarize endpoint. -/
structure SummarizeEnv where
  geminiApiKeyPresent : Bool
  maxTranscriptChars : Nat
  cacheTtlSec : Nat

/-- The final result object cached and returned by the summarize
handler (the development-only `rawModelOutput` field is not modelled). -/
structure SummaryResult where
  summary : Json
  takeaways : List Json
  actions : List Json
  isTruncated : Bool
  contentType : String

/-- HTTP response of the summarize handler. -/
structure SummarizeResponse where
  status : Nat
  error : Option String
  result : Option SummaryResult
  cachedFlag : Option Bool

/-- Complete outcome of one summarize handler invocation: the response,
the cache and rate-limiter states after the call, and how many upstream
fetch attempts were performed. -/
structure HandlerOutcome where
  response : SummarizeResponse
  cache : CacheMap SummaryResult
  rate : RateMap
  upstreamAttempts : Nat

/-- The fixed rate-limit constants of the endpoint. -/
def RATE_LIMIT_REQUESTS : Nat := 10

/-- The fixed rate-limit window of the endpoint, in seconds. -/
def RATE_LIMIT_WINDOW_SEC : Nat := 60

/-- Model of the summarize `handler`.  Attempt outcomes of the external
Gemini endpoint are supplied by the oracle `outcomes`; `now` is the
current time in milliseconds.  The prompt strings built by
`buildPrompt` do not influence any modelled observable and are omitted. -/
def summarizeHandler (env : SummarizeEnv) (req : SummarizeRequest)
    (rate : RateMap) (cache : CacheMap SummaryResult)
    (outcomes : Nat → FetchOutcome) (now : Int) : HandlerOutcome :=
  if req.method ≠ "POST" then
    ⟨⟨405, some "Method not allowed", none, none⟩, cache, rate, 0⟩
  else
    let ipCheck := checkRateLimit rate (getClientIp req) RATE_LIMIT_REQUESTS
      RATE_LIMIT_WINDOW_SEC now
    if !ipCheck.1 then
      ⟨⟨429, some "Rate limited. Max 10 requests per 60s", none, none⟩, cache, ipCheck.2, 0⟩
    else if !env.geminiApiKeyPresent then
      ⟨⟨500, some "Server configuration error. Contact administrator.", none, none⟩,
        cache, ipCheck.2, 0⟩
    else
      let titleOk := match req.title with | some t => !t.isEmpty | none => false
      if !titleOk then
        ⟨⟨400, some "Missing or invalid title", none, none⟩, cache, ipCheck.2, 0⟩
      else
        let urlOk := match req.videoUrl with | some u => !u.isEmpty | none => false
        if !urlOk then
          ⟨⟨400, some "Missing or invalid videoUrl", none, none⟩, cache, ipCheck.2, 0⟩
        else
          let hasTranscript :=
            match req.transcript with
            | some t => t.toList.any (fun c => !isJsonWs c)
            | none => false
          let hasMetadata := req.metadata.isSome
          if !hasTranscript && !hasMetadata then
            ⟨⟨400, some "Either transcript or metadata must be provided for summarization",
              none, none⟩, cache, ipCheck.2, 0⟩
          else
            let cacheKey : Option String :=
              match req.videoId with
              | some v => if v.isEmpty then none else some ("transcript_" ++ v)
              | none => none
            let lookup :=
              match cacheKey with
              | some ck => cacheGet cache (ck ++ "_summary") now
              | none => (none, cache)
            match lookup.1 with
            | some cachedResult =>
              ⟨⟨200, none, some cachedResult, some true⟩, lookup.2, ipCheck.2, 0⟩
            | none =>
              let contentInfo : String × Bool :=
                if hasTranscript then
                  let t := truncateTranscript (req.transcript.getD "") env.maxTranscriptChars
                  ("transcript", t.isTruncated)
                else ("metadata", false)
              let call := callGeminiAPI outcomes 2
              match call.result with
              | .error msg =>
                let mapped : Nat × String :=
                  if containsSub msg "Rate limited" then
                    (429, "Gemini API rate limit reached. Please wait and try again.")
                  else if containsSub msg "Invalid Gemini API key" then
                    (500, "Server configuration error.")
                  else if containsSub msg "quota exceeded" then
                    (503, "Service quota exceeded. Please try again later.")
                  else (500, "Failed to generate summary. Please try again.")
                ⟨⟨mapped.1, some mapped.2, none, none⟩, lookup.2, ipCheck.2, call.attemptsMade⟩
              | .ok resp =>
                match parseGeminiResponse resp with
                | .failure _ =>
                  ⟨⟨500, some "Failed to process AI response", none, none⟩,
                    lookup.2, ipCheck.2, call.attemptsMade⟩
                | .success d _ =>
                  let result : SummaryResult :=
                    ⟨d.summary, d.takeaways, d.actions, contentInfo.2, contentInfo.1⟩
                  let cacheAfter :=
                    match cacheKey with
                    | some ck => cacheSet lookup.2 (ck ++ "_summary") result env.cacheTtlSec now
                    | none => lookup.2
                  ⟨⟨200, none, some result, some false⟩, cacheAfter, ipCheck.2, call.attemptsMade⟩

/-- A valid summarize request that carries a transcript but no video
identifier. -/
def sampleSummarizeReq : SummarizeRequest :=
  ⟨"POST", none, none, none, none, some "hello. world", some "T", some "U", none⟩

/-- A summarize environment with the API key configured. -/
def sampleEnv : SummarizeEnv := ⟨true, 100, 60⟩

/-- An upstream oracle whose every attempt succeeds with a parseable
one-field JSON body. -/
def okOutcome : Nat → FetchOutcome :=
  fun _ => .ok ⟨[⟨some ⟨[⟨"\x7b\"summary\":\"x\"\x7d"⟩]⟩⟩]⟩

/-!
Embedding of `src/app/api/learning-callback/route.ts` (the variant with
`extractEmailFromRequestId`, the second in the file) together with the
store operations from `src/lib/learningDataStore.ts` (the variant with
email validation).  JavaScript exceptions (TypeError on property access
of `null`/`undefined`, the explicit `throw` in `transformN8nData`, the
store validation throw) are modelled by `Except.error`; the handler
catch clause turns any of them into an HTTP 500 response.
-/

/-- The at-sign character. -/
def atChar : Char := Char.ofNat 64

/-- Plain property access `v.k` on a JavaScript value: throws on `null`
(and the caller handles `undefined` receivers before the access). -/
def jsField (v : Json) (k : String) : Except String (Option Json) :=
  match v with
  | .null => .error "TypeError"
  | _ => .ok (getField v k)

/-- Optional-chaining access `v?.k` on a value that is itself defined. -/
def jsOptChain (v : Json) (k : String) : Option Json :=
  match v with
  | .null => none
  | _ => getField v k

/-- Optional-chaining access `o?.k` on a possibly-undefined value. -/
def optChainField (o : Option Json) (k : String) : Option Json :=
  match o with
  | none => none
  | some .null => none
  | some v => getField v k

/-- Optional-chaining index access `o?.[i]`. -/
def optChainIndex (o : Option Json) (i : Nat) : Option Json :=
  match o with
  | none => none
  | some .null => none
  | some (.arr xs) => xs.get? i
  | some (.obj fields) => getField (.obj fields) (toString i)
  | some _ => none

/-- The JavaScript `a || dflt` where `a` may be undefined. -/
def jsOr (o : Option Json) (dflt : Json) : Json :=
  match o with
  | some v => if jsTruthy v then v else dflt
  | none => dflt

/-- `(x || [])` followed by `.map`: a truthy non-array receiver makes
`.map` throw; a falsy or missing one yields the empty array. -/
def jsArrayElems (o : Option Json) : Except String (List Json) :=
  match o with
  | some v =>
    if jsTruthy v then
      match v with
      | .arr xs => .ok xs
      | _ => .error "TypeError"
    else .ok []
  | none => .ok []

mutual

/-- String conversion of a value in a template literal.  Numeric values
are displayed by their JSON source text, which agrees with JavaScript on
the integer literals arising in this development. -/
def jsDisplay : Json → String
  | .null => "null"
  | .bool b => if b then "true" else "false"
  | .num lit => lit
  | .str s => s
  | .arr xs => String.intercalate "," (jsDisplayList xs)
  | .obj _ => "[object Object]"

/-- Display of a list of values. -/
def jsDisplayList : List Json → List String
  | [] => []
  | x :: xs => jsDisplay x :: jsDisplayList xs

end

/-- Display of a possibly-undefined value in a template literal. -/
def jsDisplayOpt : Option Json → String
  | none => "undefined"
  | some v => jsDisplay v

/-- One transformed resource of a learning-path module. -/
structure ResourceRecord where
  type : Json
  name : Json
  link : Json
  duration_estimate : Json
  rationale : Json

/-- One transformed learning-path module. -/
structure ModuleRecord where
  module_number : Nat
  module_title : Json
  duration : Json
  objective : Json
  resources : List ResourceRecord

/-- The transformed `action_plan`. -/
structure ActionPlanRecord where
  quick_start : Json
  daily_routine : Json
  progress_tracking : Json

/-- The record built by `transformN8nData` and stored by the webhook. -/
structure TransformedRecord where
  email : Option Json
  profile_summary : Option Json
  learning_path : List ModuleRecord
  action_plan : ActionPlanRecord
  pro_tips : List String
  expected_timeline : Option Json

/-- Transformation of one resource object
(`(module.resources || []).map(resource => ...)` body). -/
def transformResource (r : Json) : Except String ResourceRecord :=
  match jsField r "type" with
  | .error e => .error e
  | .ok ty =>
    match jsField r "title" with
    | .error e => .error e
    | .ok ti =>
      match jsField r "name" with
      | .error e => .error e
      | .ok nm =>
        match jsField r "link" with
        | .error e => .error e
        | .ok lk =>
          match jsField r "duration" with
          | .error e => .error e
          | .ok du =>
            match jsField r "duration_estimate" with
            | .error e => .error e
            | .ok de =>
              match jsField r "description" with
              | .error e => .error e
              | .ok ds =>
                .ok ⟨jsOr ty (.str ""), jsOr ti (jsOr nm (.str "")), jsOr lk (.str "#"),
                  jsOr du (jsOr de (.str "")), jsOr ds (.str "")⟩

/-- Monadic map over `Except`. -/
def exceptMapList {α β : Type} (f : α → Except String β) :
    List α → Except String (List β)
  | [] => .ok []
  | x :: xs =>
    match f x with
    | .error e => .error e
    | .ok y =>
      match exceptMapList f xs with
      | .error e => .error e
      | .ok ys => .ok (y :: ys)

/-- Transformation of one learning-path module at 0-based position
`idx` (`(learningData.learning_path || []).map((module, index) => ...)`
body). -/
def transformModule (idx : Nat) (m : Json) : Except String ModuleRecord :=
  match jsField m "title" with
  | .error e => .error e
  | .ok ti =>
    match jsField m "duration" with
    | .error e => .error e
    | .ok du =>
      match jsField m "objective" with
      | .error e => .error e
      | .ok ob =>
        match jsField m "resources" with
        | .error e => .error e
        | .ok rsF =>
          match jsArrayElems rsF with
          | .error e => .error e
          | .ok rsElems =>
            match exceptMapList transformResource rsElems with
            | .error e => .error e
            | .ok rs =>
              .ok ⟨idx + 1, jsOr ti (.str ""), jsOr du (.str ""), jsOr ob (.str ""), rs⟩

/-- Index-carrying transformation of the whole learning path. -/
def transformModules : List Json → Nat → Except String (List ModuleRecord)
  | [], _ => .ok []
  | m :: ms, idx =>
    match transformModule idx m with
    | .error e => .error e
    | .ok mr =>
      match transformModules ms (idx + 1) with
      | .error e => .error e
      | .ok rest => .ok (mr :: rest)

/-- Transformation of one pro tip: strings pass through, anything else
is rendered by the template literal (throwing on `null`). -/
def transformTip (tip : Json) : Except String String :=
  match tip with
  | .str s => .ok s
  | .null => .error "TypeError"
  | t =>
    .ok ("<strong>" ++ jsDisplayOpt (getField t "title") ++ ":</strong> "
      ++ jsDisplayOpt (getField t "description"))

/-- The `data` selection of `transformN8nData`
(`Array.isArray(n8nData) ? n8nData[0] : n8nData`); an out-of-range
index is `undefined` (`none`). -/
def n8nFirstElem : Json → Option Json
  | .arr xs => xs.head?
  | v => some v

/-- The transformed `action_plan` with its three step fallbacks. -/
def transformActionPlan (ld : Json) : ActionPlanRecord :=
  ⟨jsOr (optChainField
      (optChainIndex (optChainField (getField ld "action_plan") "steps") 0) "description")
      (.str "Begin with Module 1 this week."),
    jsOr (optChainField
      (optChainIndex (optChainField (getField ld "action_plan") "steps") 1) "description")
      (.str "Dedicate time each day to learning."),
    jsOr (optChainField
      (optChainIndex (optChainField (getField ld "action_plan") "steps") 2) "description")
      (.str "Keep track of your progress.")⟩

/-- Model of `transformN8nData`.  The argument is the value the POST
handler passes (always an array there, but the function also accepts a
plain object).  The debug log `data.email` runs before the structure
check and throws on a `null` or undefined `data`, which the `TypeError`
branches reproduce. -/
def transformN8nData (n8nData : Json) : Except String TransformedRecord :=
  match n8nFirstElem n8nData with
  | none => .error "TypeError"
  | some d =>
    match jsField d "email" with
    | .error e => .error e
    | .ok emailOpt =>
      if !jsTruthy d then .error "Invalid data structure from n8n"
      else
        match getField d "learningData" with
        | none => .error "Invalid data structure from n8n"
        | some ld =>
          if !jsTruthy ld then .error "Invalid data structure from n8n"
          else
            match jsArrayElems (getField ld "learning_path") with
            | .error e => .error e
            | .ok lpElems =>
              match transformModules lpElems 0 with
              | .error e => .error e
              | .ok learning_path =>
                match jsArrayElems (getField ld "pro_tips") with
                | .error e => .error e
                | .ok tipElems =>
                  match exceptMapList transformTip tipElems with
                  | .error e => .error e
                  | .ok pro_tips =>
                    .ok { email := emailOpt,
                          profile_summary := getField ld "profile_summary",
                          learning_path := learning_path,
                          action_plan := transformActionPlan ld,
                          pro_tips := pro_tips,
                          expected_timeline := getField ld "expected_timeline" }

/-- The underscore character. -/
def underscoreChar : Char := Char.ofNat 95

/-- Model of the JavaScript `split` with a one-character separator:
every occurrence of the separator starts a new (possibly empty)
segment; the result is never empty. -/
def splitOnChar (sep : Char) : List Char → List (List Char)
  | [] => [[]]
  | c :: cs =>
    let r := splitOnChar sep cs
    if c = sep then [] :: r
    else
      match r with
      | [] => [[c]]
      | seg :: rest => (c :: seg) :: rest

/-- Model of the JavaScript `Array.join` with a one-character
separator. -/
def joinWithChar (sep : Char) : List (List Char) → List Char
  | [] => []
  | [s] => s
  | s :: rest => s ++ sep :: joinWithChar sep rest

/-- Model of `extractEmailFromRequestId`: split on underscores; when
there are at least two parts and the last one matches `^\d+$`, drop it
and rejoin, else return the input unchanged. -/
def extractEmailFromRequestId (requestId : String) : String :=
  match (splitOnChar underscoreChar requestId.toList).reverse with
  | [] => requestId
  | lastPart :: restRev =>
    if restRev ≠ [] ∧ lastPart ≠ [] ∧ lastPart.all Char.isDigit then
      String.mk (joinWithChar underscoreChar restRev.reverse)
    else requestId

/-- The learning-data store (Prisma table keyed by `email`), as an
association list of key, record and absolute expiry time. -/
def LearningStore : Type := List (String × TransformedRecord × Int)

/-- The fixed 30-minute expiration horizon, in milliseconds. -/
def CACHE_EXPIRATION : Int := 30 * 60 * 1000

/-- Model of `storeLearningData`: validates that the key looks like an
email, then upserts the record with a fresh expiry. -/
def storeLearningData (store : LearningStore) (dataId : String)
    (rec : TransformedRecord) (now : Int) : Except String LearningStore :=
  if !(dataId.toList.contains atChar) then
    .error ("Invalid email format: " ++ dataId)
  else
    .ok (store.filter (fun p => p.1 ≠ dataId) ++ [(dataId, rec, now + CACHE_EXPIRATION)])

/-- Model of `getLearningData`: lookup by key, lazily deleting an
expired record. -/
def getLearningData (store : LearningStore) (dataId : String) (now : Int) :
    Option TransformedRecord × LearningStore :=
  match store.find? (fun p => p.1 = dataId) with
  | none => (none, store)
  | some p =>
    if now > p.2.2 then (none, store.filter (fun q => q.1 ≠ dataId))
    else (some p.2.1, store)

/-- Outcome of one webhook POST: status, error message, response
`dataId` and `modulesCount`, the stored key and record when storage
happened, and the store afterwards. -/
structure CallbackPostOutcome where
  status : Nat
  error : Option String
  dataId : Option String
  modulesCount : Option Nat
  stored : Option (String × TransformedRecord)
  store : LearningStore

/-- A string candidate passes the filter
`typeof v === "string" && v.length > 0`. -/
def asNonemptyString (o : Option Json) : Option String :=
  match o with
  | some (.str s) => if s.isEmpty then none else some s
  | _ => none

/-- The ordered identifier candidates of the POST handler. -/
def candidateIds (body n8nData : Json) (transformed : TransformedRecord) :
    List String :=
  ([jsOptChain n8nData "dataId",
    jsOptChain body "dataId",
    jsOptChain n8nData "requestId",
    jsOptChain body "requestId",
    transformed.email,
    jsOptChain n8nData "email",
    optChainField (jsOptChain n8nData "learningData") "email",
    optChainField transformed.profile_summary "email",
    optChainField transformed.profile_summary "contact_email"]).filterMap
    asNonemptyString

/-- The `Object.keys` call, which throws on `null`. -/
def objectKeysOk (v : Json) : Except String Unit :=
  match v with
  | .null => .error "TypeError"
  | _ => .ok ()

/-- The `actualData` selection of the POST handler: unwrap an extra
`body` level when that field is truthy. -/
def callbackActualData (body : Json) : Json :=
  match getField body "body" with
  | some v => if jsTruthy v then v else body
  | none => body

/-- The `n8nData` selection of the POST handler: first element of a
nonempty array, else the value itself. -/
def callbackN8nData (body : Json) : Json :=
  match callbackActualData body with
  | .arr (x :: _) => x
  | v => v

/-- The argument the POST handler passes to `transformN8nData`
(`Array.isArray(actualData) ? actualData : [n8nData]`). -/
def callbackTransformArg (body : Json) : Json :=
  match callbackActualData body with
  | .arr xs => .arr xs
  | v => .arr [v]

/-- The email validation of the POST handler
(`!email || typeof email !== "string" || !email.includes("@")`). -/
def validEmailField (o : Option Json) : Bool :=
  match o with
  | some (.str s) => !s.isEmpty && s.toList.contains atChar
  | _ => false

/-- The resolved storage key of the POST handler: the first nonempty
string candidate (see `candidateIds`), or a synthetic time-based key,
normalized by `extractEmailFromRequestId`. -/
def resolvedDataId (body : Json) (transformed : TransformedRecord) (now : Int) :
    String :=
  extractEmailFromRequestId
    ((candidateIds body (callbackN8nData body) transformed).headD
      ("learning-" ++ toString now))

/-- Throwing part of the POST handler; validation rejections are
ordinary (`.ok`) outcomes, thrown exceptions are errors handled by the
caller. -/
def learningCallbackPOSTCore (body : Json) (store : LearningStore) (now : Int) :
    Except String CallbackPostOutcome :=
  match objectKeysOk body with
  | .error e => .error e
  | .ok _ =>
    match jsField body "body" with
    | .error e => .error e
    | .ok _ =>
      match jsField (callbackN8nData body) "email" with
      | .error e => .error e
      | .ok _ =>
        match transformN8nData (callbackTransformArg body) with
        | .error e => .error e
        | .ok transformed =>
          if transformed.learning_path.isEmpty then
            .ok ⟨400, some "Invalid learning data structure - no learning_path found",
              none, none, none, store⟩
          else if !validEmailField transformed.email then
            .ok ⟨400, some "Invalid or missing email address", none, none, none, store⟩
          else
            match storeLearningData store (resolvedDataId body transformed now)
                transformed now with
            | .error e => .error e
            | .ok store2 =>
              .ok ⟨200, none, some (resolvedDataId body transformed now),
                some transformed.learning_path.length,
                some (resolvedDataId body transformed now, transformed), store2⟩

/-- Model of the webhook POST handler: the catch clause maps any thrown
error to a 500 response. -/
def learningCallbackPOST (body : Json) (store : LearningStore) (now : Int) :
    CallbackPostOutcome :=
  match learningCallbackPOSTCore body store now with
  | .ok outcome => outcome
  | .error _ =>
    ⟨500, some "Failed to process learning data", none, none, none, store⟩

/-- Outcome of one webhook GET. -/
structure CallbackGetOutcome where
  status : Nat
  record : Option TransformedRecord
  error : Option String
  store : LearningStore

/-- Model of the webhook GET handler: the query parameter is normalized
by `extractEmailFromRequestId` before lookup. -/
def learningCallbackGET (rawDataId : Option String) (store : LearningStore)
    (now : Int) : CallbackGetOutcome :=
  match rawDataId with
  | none => ⟨400, none, some "Missing dataId parameter", store⟩
  | some raw =>
    if raw.isEmpty then ⟨400, none, some "Missing dataId parameter", store⟩
    else
      let dataId := extractEmailFromRequestId raw
      let g := getLearningData store dataId now
      match g.1 with
      | none =>
        ⟨404, none,
          some "Learning data not found. Please wait for n8n to process your request.",
          g.2⟩
      | some rec => ⟨200, some rec, none, g.2⟩

/-- The callback payload of the specification example, completed with
the top-level email field and the one module needed to pass the
validation of the POST handler. -/
def samplePayload : Json :=
  .obj [("dataId", .str "alice@example.com_1700000000000"),
    ("email", .str "bob@x.com"),
    ("learningData", .obj [("learning_path", .arr [.obj [("title", .str "M1")]])])]

/-- The record the webhook stores for `samplePayload`. -/
def sampleRecord : TransformedRecord :=
  ⟨some (.str "bob@x.com"), none,
    [⟨1, .str "M1", .str "", .str "", []⟩],
    ⟨.str "Begin with Module 1 this week.",
      .str "Dedicate time each day to learning.",
      .str "Keep track of your progress."⟩, [], none⟩

/-!
Embedding of the client polling loop (`pollForLearningData` and the
data-selection part of `handleSubmit` in `src/app/page.tsx`).
-/

/-- Outcome of one poll fetch: a 200 response with its JSON body, a
404, another non-ok status, or a network failure. -/
inductive PollResponse where
  | okData (data : Json)
  | notFound
  | otherStatus (s : Nat)
  | netErr

/-- Trace of one `pollForLearningData` run: the data received (if any),
the number of fetch attempts performed, and the waits (milliseconds)
between attempts. -/
structure PollTrace where
  data : Option Json
  attempts : Nat
  delays : List Nat

/-- Success test of one poll fetch: a 200 response whose body has a
truthy `learning_path` yields the data; every other outcome (404, other
status via throw and catch, network error) falls through. -/
def pollSuccess (r : PollResponse) : Option Json :=
  match r with
  | .okData d =>
    if jsTruthy d &&
        (match getField d "learning_path" with
         | some v => jsTruthy v
         | none => false) then
      some d
    else none
  | _ => none

/-- Recursive loop of `pollForLearningData`: increment the attempt
counter, fetch and test with `pollSuccess`; on failure below the
attempt bound the loop waits 2000 ms and recurses, otherwise it
returns no data.  Fuel `maxAttempts + 1` exceeds the number of
iterations, so the zero-fuel branch is unreachable. -/
def pollAux (responses : Nat → PollResponse) (maxAttempts : Nat) :
    Nat → Nat → List Nat → PollTrace
  | 0, attempts, delaysAcc => ⟨none, attempts, delaysAcc.reverse⟩
  | Nat.succ fuel, attempts, delaysAcc =>
    match pollSuccess (responses attempts) with
    | some d => ⟨some d, attempts + 1, delaysAcc.reverse⟩
    | none =>
      if attempts + 1 < maxAttempts then
        pollAux responses maxAttempts fuel (attempts + 1) (2000 :: delaysAcc)
      else ⟨none, attempts + 1, delaysAcc.reverse⟩

/-- Model of `pollForLearningData`; `maxAttempts` defaults to 60 at the
call site. -/
def pollForLearningData (responses : Nat → PollResponse) (maxAttempts : Nat) :
    PollTrace :=
  pollAux responses maxAttempts (maxAttempts + 1) 0 []

/-- The `defaultLearningData` fallback object of `src/app/page.tsx`. -/
def defaultLearningData : Json :=
  .obj
    [("profile_summary", .obj
      [("goal", .str "Upgrade career growth in Product Design (UI/UX)"),
       ("current_level", .str "Intermediate"),
       ("focus_area", .str "Product Design (UI/UX)"),
       ("session_duration", .str "20 Minutes"),
       ("best_learning_time", .str "Morning"),
       ("learning_pace", .str "Slow"),
       ("content_preference", .str "Audio Visual")]),
     ("learning_path", .arr []),
     ("action_plan", .obj
      [("quick_start", .str "Begin with Module 1 this week."),
       ("daily_routine", .str "Set an alarm for 20 minutes each morning."),
       ("progress_tracking", .str "Keep a simple journal.")]),
     ("pro_tips", .arr [])]

/-- Data-selection behaviour of `handleSubmit`: poll with the default
bound of 60 attempts; on success the received data is shown, on timeout
the default object; either way the dashboard screen is shown. -/
def handleSubmitOutcome (responses : Nat → PollResponse) : Json × String :=
  match (pollForLearningData responses 60).data with
  | some d => (d, "dashboard")
  | none => (defaultLearningData, "dashboard")

/-!
Helper lemmas.
-/

/-- Conversion of a built string back to its character list. -/
lemma toList_mk (l : List Char) : (String.mk l).toList = l := rfl

/-- Length of a built string. -/
lemma length_mk (l : List Char) : (String.mk l).length = l.length := rfl

/-- Length of a string through its character list. -/
lemma length_toList (s : String) : s.toList.length = s.length := rfl

/-- A successful `findIdxOfChar` points at an occurrence of the
character. -/
lemma findIdxOfChar_some {c : Char} :
    ∀ {l : List Char} {i : Nat}, findIdxOfChar c l = some i →
      i < l.length ∧ l[i]? = some c := by
  intro l
  induction l with
  | nil => intro i h; simp [findIdxOfChar] at h
  | cons d ds ih =>
    intro i h
    by_cases hd : d = c
    · simp [findIdxOfChar, hd] at h
      subst h
      simp [hd]
    · simp [findIdxOfChar, hd] at h
      obtain ⟨j, hj, rfl⟩ := h
      obtain ⟨h1, h2⟩ := ih hj
      exact ⟨by simpa using Nat.succ_lt_succ h1, by simpa using h2⟩

/-- A successful `lastIndexOfChar` points at an occurrence of the
character. -/
lemma lastIndexOfChar_some {c : Char} {l : List Char} {i : Nat}
    (h : lastIndexOfChar l c = some i) : i < l.length ∧ l[i]? = some c := by
  unfold lastIndexOfChar at h
  cases hf : findIdxOfChar c l.reverse with
  | none => rw [hf] at h; exact absurd h (by simp)
  | some j =>
    rw [hf] at h
    obtain ⟨hj, hget⟩ := findIdxOfChar_some hf
    rw [List.length_reverse] at hj
    have hi : i = l.length - 1 - j := by injection h with h2; omega
    subst hi
    refine ⟨by omega, ?_⟩
    rw [List.getElem?_reverse (by simpa using hj)] at hget
    exact hget

/-- The prefix cut just beyond an occurrence ends at that occurrence. -/
lemma getLast?_take_succ {l : List Char} {i : Nat} {c : Char}
    (h : l[i]? = some c) : (l.take (i + 1)).getLast? = some c := by
  have hi : i < l.length := by
    by_contra hc
    push_neg at hc
    rw [List.getElem?_eq_none hc] at h
    exact Option.noConfusion h
  have hlen : (l.take (i + 1)).length = i + 1 := by
    rw [List.length_take]; omega
  rw [List.getLast?_eq_getElem? (l.take (i + 1)), hlen]
  simpa [List.getElem?_take_of_lt (Nat.lt_succ_self i)] using h

/-- Equation for `truncateTranscript` when a longer transcript has no
period in the truncated prefix. -/
lemma truncateTranscript_of_none (t : String) (maxChars : Nat)
    (h : ¬ t.length ≤ maxChars)
    (hidx : lastIndexOfChar (t.toList.take maxChars) periodChar = none) :
    truncateTranscript t maxChars = ⟨String.mk (t.toList.take maxChars), true⟩ := by
  unfold truncateTranscript
  rw [if_neg h]
  simp only [toList_mk, hidx]

/-- Equation for `truncateTranscript` when the last period clears the
90 percent bound. -/
lemma truncateTranscript_of_cut (t : String) (maxChars lp : Nat)
    (h : ¬ t.length ≤ maxChars)
    (hidx : lastIndexOfChar (t.toList.take maxChars) periodChar = some lp)
    (hcut : 10 * lp > 9 * maxChars) :
    truncateTranscript t maxChars =
      ⟨String.mk ((t.toList.take maxChars).take (lp + 1)), true⟩ := by
  unfold truncateTranscript
  rw [if_neg h]
  simp only [toList_mk, hidx]
  rw [if_pos hcut]

/-- Equation for `truncateTranscript` when the last period misses the
90 percent bound. -/
lemma truncateTranscript_of_nocut (t : String) (maxChars lp : Nat)
    (h : ¬ t.length ≤ maxChars)
    (hidx : lastIndexOfChar (t.toList.take maxChars) periodChar = some lp)
    (hcut : ¬ 10 * lp > 9 * maxChars) :
    truncateTranscript t maxChars = ⟨String.mk (t.toList.take maxChars), true⟩ := by
  unfold truncateTranscript
  rw [if_neg h]
  simp only [toList_mk, hidx]
  rw [if_neg hcut]

/-!
Claim C5: transcript truncation.
-/

/-- C5: for every transcript and maximum character count, a transcript
no longer than the maximum is returned unchanged with `isTruncated =
false`; a longer one is truncated to at most the maximum with
`isTruncated = true`, and when the last period of the truncated prefix
lies after 90 percent of the maximum, the result ends exactly at that
period. -/
theorem truncateTranscript_spec (t : String) (maxChars : Nat) :
    (t.length ≤ maxChars → truncateTranscript t maxChars = ⟨t, false⟩) ∧
    (maxChars < t.length →
      (truncateTranscript t maxChars).isTruncated = true ∧
      (truncateTranscript t maxChars).transcript.length ≤ maxChars ∧
      (∀ ip, lastIndexOfChar (t.toList.take maxChars) periodChar = some ip →
        10 * ip > 9 * maxChars →
        (truncateTranscript t maxChars).transcript = String.mk (t.toList.take (ip + 1)) ∧
        (truncateTranscript t maxChars).transcript.toList.getLast? = some periodChar)) := by
  constructor
  · intro h
    unfold truncateTranscript
    rw [if_pos h]
  · intro h
    have hnot : ¬ t.length ≤ maxChars := by omega
    rcases hO : lastIndexOfChar (t.toList.take maxChars) periodChar with _ | lp
    · rw [truncateTranscript_of_none t maxChars hnot hO]
      refine ⟨rfl, ?_, ?_⟩
      · simp [length_mk, List.length_take]
      · intro ip hip
        exact absurd hip (by simp)
    · obtain ⟨hlp, hlpget⟩ := lastIndexOfChar_some hO
      rw [List.length_take] at hlp
      by_cases hcut : 10 * lp > 9 * maxChars
      · rw [truncateTranscript_of_cut t maxChars lp hnot hO hcut]
        refine ⟨rfl, ?_, ?_⟩
        · simp only [length_mk, List.length_take]
          omega
        · intro ip hip hip2
          injection hip with hip
          subst hip
          constructor
          · rw [List.take_take, Nat.min_eq_left (by omega : lp + 1 ≤ maxChars)]
          · rw [toList_mk]
            exact getLast?_take_succ hlpget
      · rw [truncateTranscript_of_nocut t maxChars lp hnot hO hcut]
        refine ⟨rfl, ?_, ?_⟩
        · simp [length_mk, List.length_take]
        · intro ip hip hip2
          injection hip with hip
          subst hip
          exact absurd hip2 hcut

/-- C5 witness: a short transcript passes through unchanged; a
25-character transcript with max 20 and a period at index 19 is
truncated to end exactly at that period. -/
theorem truncateTranscript_spec_witness :
    truncateTranscript "short." 20 = ⟨"short.", false⟩ ∧
    (truncateTranscript "aaaaaaaaaaaaaaaaaaa.xxxxx" 20).isTruncated = true ∧
    (truncateTranscript "aaaaaaaaaaaaaaaaaaa.xxxxx" 20).transcript =
      String.mk ("aaaaaaaaaaaaaaaaaaa.xxxxx".toList.take 20) ∧
    (truncateTranscript "aaaaaaaaaaaaaaaaaaa.xxxxx" 20).transcript.toList.getLast? =
      some periodChar := by
  have h1 := (truncateTranscript_spec "short." 20).1 (by decide)
  have h2 := (truncateTranscript_spec "aaaaaaaaaaaaaaaaaaa.xxxxx" 20).2 (by decide)
  have h3 := h2.2.2 19 (by rfl) (by decide)
  exact ⟨h1, h2.1, h3.1, h3.2⟩

/-!
Claim C7: cache TTL behaviour.
-/

/-- Looking up a key among entries filtered to other keys fails. -/
lemma find?_filter_ne {β : Type} (l : List (String × β)) (k : String) :
    (l.filter (fun p => p.1 ≠ k)).find? (fun p => p.1 = k) = none := by
  rw [List.find?_eq_none]
  intro x hx
  have := List.of_mem_filter hx
  simpa using this

/-- Lookup after appending an entry with the searched key behind
entries with other keys. -/
lemma find?_filter_ne_append {β : Type} (l : List (String × β)) (k : String)
    (x : String × β) (hx : x.1 = k) :
    ((l.filter (fun p => p.1 ≠ k)) ++ [x]).find? (fun p => p.1 = k) = some x := by
  induction l with
  | nil => simp [List.find?, hx]
  | cons a as ih =>
    by_cases ha : a.1 = k
    · simpa [List.filter_cons, ha] using ih
    · simpa [List.filter_cons, ha, List.find?] using ih

/-- Filtering the appended entry away restores the filtered base
list. -/
lemma filter_ne_append {β : Type} (l : List (String × β)) (k : String)
    (x : String × β) (hx : x.1 = k) :
    ((l.filter (fun p => p.1 ≠ k)) ++ [x]).filter (fun p => p.1 ≠ k) =
      l.filter (fun p => p.1 ≠ k) := by
  rw [List.filter_append, List.filter_filter]
  simp [hx]

/-- C7: `set` followed by an immediate `get` returns the stored value;
once the TTL has elapsed, `get` returns absent, evicts the entry, and
the entry no longer counts toward `size`. -/
theorem cache_ttl_spec {α : Type} (m : CacheMap α) (k : String) (v : α)
    (ttlSec : Nat) (now later : Int) :
    (cacheGet (cacheSet m k v ttlSec now) k now).1 = some v ∧
    (now + (ttlSec : Int) * 1000 < later →
      (cacheGet (cacheSet m k v ttlSec now) k later).1 = none ∧
      ((cacheGet (cacheSet m k v ttlSec now) k later).2).find?
        (fun p => p.1 = k) = none ∧
      cacheSize ((cacheGet (cacheSet m k v ttlSec now) k later).2) =
        cacheSize (cacheSet m k v ttlSec now) - 1) := by
  have hfind : (cacheSet m k v ttlSec now).find? (fun p => p.1 = k) =
      some (k, ⟨v, now + (ttlSec : Int) * 1000⟩) := by
    unfold cacheSet
    exact find?_filter_ne_append m k _ rfl
  constructor
  · unfold cacheGet
    have hle : ¬ now > now + (ttlSec : Int) * 1000 := by omega
    simp only [hfind]
    rw [if_neg hle]
  · intro hlate
    have hgt : later > now + (ttlSec : Int) * 1000 := hlate
    unfold cacheGet
    simp only [hfind]
    rw [if_pos hgt]
    refine ⟨rfl, ?_, ?_⟩
    · unfold cacheSet
      rw [filter_ne_append m k _ rfl]
      exact find?_filter_ne m k
    · unfold cacheSet cacheSize
      rw [filter_ne_append m k _ rfl]
      rw [List.length_append]
      simp

/-- C7 witness: a fresh entry with a one-second TTL is readable at once
and gone (including from `size`) just after expiry. -/
theorem cache_ttl_spec_witness :
    (cacheGet (cacheSet ([] : CacheMap Nat) "k" 7 1 0) "k" 0).1 = some 7 ∧
    (cacheGet (cacheSet ([] : CacheMap Nat) "k" 7 1 0) "k" 1001).1 = none ∧
    cacheSize ((cacheGet (cacheSet ([] : CacheMap Nat) "k" 7 1 0) "k" 1001).2) =
      cacheSize (cacheSet ([] : CacheMap Nat) "k" 7 1 0) - 1 := by
  have h := cache_ttl_spec ([] : CacheMap Nat) "k" 7 1 0 1001
  have h2 := h.2 (by norm_num)
  exact ⟨h.1, h2.1, h2.2.2⟩

/-!
Claim C4: defensive parsing of the model response.
-/

/-- C4 counterexample: on a text holding two separate top-level brace
blocks, the first block alone is valid JSON, yet `extractJSON` yields a
parse failure, because the pattern grabs from the first opening brace to
the last closing brace instead of the first top-level block. -/
theorem extractJSON_not_first_block :
    extractJSON "\x7b\"a\":1\x7d x \x7b\"b\":2\x7d" = none ∧
    jsonParse "\x7b\"a\":1\x7d" = some (Json.obj [("a", Json.num "1")]) :=
  ⟨rfl, rfl⟩

/-- C4 (amended): parsing first attempts a direct JSON parse; on
failure it parses the substring from the first opening brace through
the last closing brace of the text (not the first top-level block); if
neither succeeds the result is a parse failure.  In particular the
documented example extracts the embedded object, and unparseable text
yields the failure. -/
theorem extractJSON_spec :
    extractJSON "Here is the result: \x7b\"summary\":\"x\",\"takeaways\":[\"a\"],\"actions\":[]\x7d" =
      some (Json.obj [("summary", Json.str "x"), ("takeaways", Json.arr [Json.str "a"]),
        ("actions", Json.arr [])]) ∧
    extractJSON "no json here" = none ∧
    (∀ t v, jsonParse t = some v → extractJSON t = some v) ∧
    (∀ t, jsonParse t = none →
      extractJSON t = (extractBraceBlock t).bind jsonParse) := by
  refine ⟨rfl, rfl, ?_, ?_⟩
  · intro t v h
    by_cases ht : t = ""
    · subst ht
      rw [show jsonParse "" = none from rfl] at h
      exact Option.noConfusion h
    · unfold extractJSON
      rw [if_neg ht, h]
  · intro t h
    by_cases ht : t = ""
    · subst ht
      rfl
    · unfold extractJSON
      rw [if_neg ht, h]
      cases extractBraceBlock t <;> rfl

/-- C4 witness: a directly parseable text short-circuits, and a text
with no braces follows the block-extraction path. -/
theorem extractJSON_spec_witness :
    extractJSON "7" = some (Json.num "7") ∧
    extractJSON "xy" = (extractBraceBlock "xy").bind jsonParse :=
  ⟨extractJSON_spec.2.2.1 "7" (Json.num "7") rfl,
   extractJSON_spec.2.2.2 "xy" rfl⟩

/-!
Claim C1: retry behaviour of the Gemini call.
-/

/-- Invariant of the `callGeminiAPI` loop: attempts are bounded by
`retries + 1`; one backoff delay of `1000 * 2 ^ i` follows the failed
attempt `i`; a returned value comes from the first successful attempt;
a thrown error means every attempt failed and carries the message of
the last attempt. -/
lemma callGeminiAux_inv (outcomes : Nat → FetchOutcome) (retries : Nat) :
    ∀ fuel attempt delaysAcc,
      fuel + attempt = retries + 1 →
      attempt ≤ retries →
      delaysAcc = ((List.range attempt).map (fun i => 1000 * 2 ^ i)).reverse →
      (attempt + 1 ≤ (callGeminiAux outcomes retries fuel attempt delaysAcc).attemptsMade ∧
        (callGeminiAux outcomes retries fuel attempt delaysAcc).attemptsMade ≤ retries + 1) ∧
      (callGeminiAux outcomes retries fuel attempt delaysAcc).delays =
        (List.range ((callGeminiAux outcomes retries fuel attempt delaysAcc).attemptsMade - 1)).map
          (fun i => 1000 * 2 ^ i) ∧
      (∀ resp, (callGeminiAux outcomes retries fuel attempt delaysAcc).result = .ok resp →
        outcomes ((callGeminiAux outcomes retries fuel attempt delaysAcc).attemptsMade - 1) =
          .ok resp ∧
        ∀ i, attempt ≤ i →
          i < (callGeminiAux outcomes retries fuel attempt delaysAcc).attemptsMade - 1 →
          fetchFailed (outcomes i) = true) ∧
      (∀ msg, (callGeminiAux outcomes retries fuel attempt delaysAcc).result = .error msg →
        (callGeminiAux outcomes retries fuel attempt delaysAcc).attemptsMade = retries + 1 ∧
        msg = geminiErrMsg (outcomes retries) ∧
        ∀ i, attempt ≤ i → i ≤ retries → fetchFailed (outcomes i) = true) := by
  intro fuel
  induction fuel with
  | zero => intro attempt delaysAcc hsum hle _; omega
  | succ fuel ih =>
    intro attempt delaysAcc hsum hle hacc
    cases ho : outcomes attempt with
    | ok resp =>
      simp only [callGeminiAux, ho]
      refine ⟨⟨le_refl _, by omega⟩, ?_, ?_, ?_⟩
      · simp [hacc]
      · intro resp2 hr
        injection hr with hr
        subst hr
        exact ⟨by simpa using ho, fun i h1 h2 => by omega⟩
      · intro msg hmsg
        exact Except.noConfusion hmsg
    | httpErr s =>
      simp only [callGeminiAux, ho]
      by_cases hlt : attempt < retries
      · rw [if_pos hlt]
        have hIH := ih (attempt + 1) (1000 * 2 ^ attempt :: delaysAcc) (by omega) (by omega)
          (by simp [hacc, List.range_succ])
        refine ⟨⟨by omega, hIH.1.2⟩, hIH.2.1, ?_, ?_⟩
        · intro resp hr
          obtain ⟨h1, h2⟩ := hIH.2.2.1 resp hr
          refine ⟨h1, fun i hi1 hi2 => ?_⟩
          rcases Nat.eq_or_lt_of_le hi1 with hEq | hGt
          · subst hEq; simp [fetchFailed, ho]
          · exact h2 i hGt hi2
        · intro msg hmsg
          obtain ⟨h1, h2, h3⟩ := hIH.2.2.2 msg hmsg
          refine ⟨h1, h2, fun i hi1 hi2 => ?_⟩
          rcases Nat.eq_or_lt_of_le hi1 with hEq | hGt
          · subst hEq; simp [fetchFailed, ho]
          · exact h3 i hGt hi2
      · rw [if_neg hlt]
        have hEq : attempt = retries := by omega
        refine ⟨⟨le_refl _, by show attempt + 1 ≤ retries + 1; omega⟩, ?_, ?_, ?_⟩
        · simp [hacc]
        · intro resp hr
          exact Except.noConfusion hr
        · intro msg hmsg
          injection hmsg with hmsg
          subst hmsg
          subst hEq
          refine ⟨rfl, by rw [ho], fun i hi1 hi2 => ?_⟩
          have : i = attempt := by omega
          subst this
          simp [fetchFailed, ho]
    | netErr m =>
      simp only [callGeminiAux, ho]
      by_cases hlt : attempt < retries
      · rw [if_pos hlt]
        have hIH := ih (attempt + 1) (1000 * 2 ^ attempt :: delaysAcc) (by omega) (by omega)
          (by simp [hacc, List.range_succ])
        refine ⟨⟨by omega, hIH.1.2⟩, hIH.2.1, ?_, ?_⟩
        · intro resp hr
          obtain ⟨h1, h2⟩ := hIH.2.2.1 resp hr
          refine ⟨h1, fun i hi1 hi2 => ?_⟩
          rcases Nat.eq_or_lt_of_le hi1 with hEq | hGt
          · subst hEq; simp [fetchFailed, ho]
          · exact h2 i hGt hi2
        · intro msg hmsg
          obtain ⟨h1, h2, h3⟩ := hIH.2.2.2 msg hmsg
          refine ⟨h1, h2, fun i hi1 hi2 => ?_⟩
          rcases Nat.eq_or_lt_of_le hi1 with hEq | hGt
          · subst hEq; simp [fetchFailed, ho]
          · exact h3 i hGt hi2
      · rw [if_neg hlt]
        have hEq : attempt = retries := by omega
        refine ⟨⟨le_refl _, by show attempt + 1 ≤ retries + 1; omega⟩, ?_, ?_, ?_⟩
        · simp [hacc]
        · intro resp hr
          exact Except.noConfusion hr
        · intro msg hmsg
          injection hmsg with hmsg
          subst hmsg
          subst hEq
          refine ⟨rfl, by rw [ho], fun i hi1 hi2 => ?_⟩
          have : i = attempt := by omega
          subst this
          simp [fetchFailed, ho]

/-- C1 counterexample: a 401 on the first attempt does not propagate
immediately; the call performs a second upstream attempt, which here
succeeds, so a 401 is in fact retried. -/
theorem callGeminiAPI_401_retried :
    (callGeminiAPI (fun n => if n = 0 then FetchOutcome.httpErr 401
      else FetchOutcome.ok ⟨[]⟩) 2).attemptsMade = 2 ∧
    (callGeminiAPI (fun n => if n = 0 then FetchOutcome.httpErr 401
      else FetchOutcome.ok ⟨[]⟩) 2).delays = [1000] ∧
    exceptIsOk (callGeminiAPI (fun n => if n = 0 then FetchOutcome.httpErr 401
      else FetchOutcome.ok ⟨[]⟩) 2).result = true :=
  ⟨rfl, rfl, rfl⟩

/-- C1 (amended): every failed attempt below the retry bound — a 429,
but equally a 401, a 403 or a network error, since their throws are
caught by the same catch clause — is retried after an exponentially
doubling backoff delay; attempts never exceed `retries + 1`; after the
bound is exhausted the error of the last attempt propagates with its
distinct per-kind message (429, 401 and 403 each produce a distinct
error message). -/
theorem callGeminiAPI_spec (outcomes : Nat → FetchOutcome) (retries : Nat) :
    (1 ≤ (callGeminiAPI outcomes retries).attemptsMade ∧
      (callGeminiAPI outcomes retries).attemptsMade ≤ retries + 1) ∧
    (callGeminiAPI outcomes retries).delays =
      (List.range ((callGeminiAPI outcomes retries).attemptsMade - 1)).map
        (fun i => 1000 * 2 ^ i) ∧
    (∀ resp, (callGeminiAPI outcomes retries).result = .ok resp →
      outcomes ((callGeminiAPI outcomes retries).attemptsMade - 1) = .ok resp ∧
      ∀ i, i < (callGeminiAPI outcomes retries).attemptsMade - 1 →
        fetchFailed (outcomes i) = true) ∧
    (∀ msg, (callGeminiAPI outcomes retries).result = .error msg →
      (callGeminiAPI outcomes retries).attemptsMade = retries + 1 ∧
      msg = geminiErrMsg (outcomes retries) ∧
      ∀ i, i ≤ retries → fetchFailed (outcomes i) = true) := by
  have h := callGeminiAux_inv outcomes retries (retries + 1) 0 [] (by omega) (by omega)
    (by simp)
  refine ⟨⟨h.1.1, h.1.2⟩, h.2.1, ?_, ?_⟩
  · intro resp hr
    obtain ⟨h1, h2⟩ := h.2.2.1 resp hr
    exact ⟨h1, fun i hi => h2 i (Nat.zero_le i) hi⟩
  · intro msg hmsg
    obtain ⟨h1, h2, h3⟩ := h.2.2.2 msg hmsg
    exact ⟨h1, h2, fun i hi => h3 i (Nat.zero_le i) hi⟩

/-- C1 witness: with every attempt answering 429 and the default bound
of 2 retries, three attempts happen, the delays double from one second,
and the distinct rate-limit error propagates. -/
theorem callGeminiAPI_spec_witness :
    (callGeminiAPI (fun _ => FetchOutcome.httpErr 429) 2).attemptsMade = 2 + 1 ∧
    "Rate limited by Gemini API" = geminiErrMsg ((fun _ => FetchOutcome.httpErr 429) 2) ∧
    (callGeminiAPI (fun _ => FetchOutcome.httpErr 429) 2).delays =
      (List.range ((callGeminiAPI (fun _ => FetchOutcome.httpErr 429) 2).attemptsMade - 1)).map
        (fun i => 1000 * 2 ^ i) := by
  have h := callGeminiAPI_spec (fun _ => FetchOutcome.httpErr 429) 2
  have he := h.2.2.2 "Rate limited by Gemini API" rfl
  exact ⟨he.1, he.2.1, h.2.1⟩

/-!
Claim C9: termination and fallback of the client polling loop.
-/

/-- Invariant of the polling loop: the attempt count grows by at least
one and never exceeds the bound, and exactly one 2000 ms wait separates
consecutive attempts. -/
lemma pollAux_inv (responses : Nat → PollResponse) (maxAttempts : Nat)
    (hmax : 1 ≤ maxAttempts) :
    ∀ fuel attempts delaysAcc,
      attempts + fuel = maxAttempts + 1 →
      attempts ≤ maxAttempts - 1 →
      delaysAcc = List.replicate attempts 2000 →
      (attempts + 1 ≤ (pollAux responses maxAttempts fuel attempts delaysAcc).attempts ∧
        (pollAux responses maxAttempts fuel attempts delaysAcc).attempts ≤ maxAttempts) ∧
      (pollAux responses maxAttempts fuel attempts delaysAcc).delays =
        List.replicate ((pollAux responses maxAttempts fuel attempts delaysAcc).attempts - 1)
          2000 := by
  intro fuel
  induction fuel with
  | zero => intro attempts delaysAcc hsum hle _; omega
  | succ fuel ih =>
    intro attempts delaysAcc hsum hle hacc
    cases hr : pollSuccess (responses attempts) with
    | some d =>
      simp only [pollAux, hr]
      refine ⟨⟨le_refl _, by show attempts + 1 ≤ maxAttempts; omega⟩, ?_⟩
      simp [hacc, List.reverse_replicate]
    | none =>
      simp only [pollAux, hr]
      by_cases hlt : attempts + 1 < maxAttempts
      · rw [if_pos hlt]
        have hIH := ih (attempts + 1) (2000 :: delaysAcc) (by omega) (by omega)
          (by simp [hacc, List.replicate_succ])
        exact ⟨⟨by omega, hIH.1.2⟩, hIH.2⟩
      · rw [if_neg hlt]
        refine ⟨⟨le_refl _, by show attempts + 1 ≤ maxAttempts; omega⟩, ?_⟩
        simp [hacc, List.reverse_replicate]

/-- C9: the polling loop terminates within the attempt bound, waits a
fixed 2000 ms between consecutive attempts, and when the budget of the
actual call site (60 attempts) is exhausted without data, the submit
flow falls back to the default learning plan on the dashboard. -/
theorem pollForLearningData_spec (responses : Nat → PollResponse)
    (maxAttempts : Nat) (hmax : 1 ≤ maxAttempts) :
    (pollForLearningData responses maxAttempts).attempts ≤ maxAttempts ∧
    (pollForLearningData responses maxAttempts).delays =
      List.replicate ((pollForLearningData responses maxAttempts).attempts - 1) 2000 ∧
    ((pollForLearningData responses 60).data = none →
      handleSubmitOutcome responses = (defaultLearningData, "dashboard")) := by
  have h := pollAux_inv responses maxAttempts hmax (maxAttempts + 1) 0 [] (by omega)
    (by omega) (by simp)
  refine ⟨h.1.2, h.2, ?_⟩
  intro hnone
  unfold handleSubmitOutcome
  rw [hnone]

/-- C9 witness: with every poll answering 404 the loop stops after 60
attempts, the waits are fixed, and the default plan is shown. -/
theorem pollForLearningData_spec_witness :
    (pollForLearningData (fun _ => PollResponse.notFound) 60).attempts ≤ 60 ∧
    (pollForLearningData (fun _ => PollResponse.notFound) 60).delays =
      List.replicate ((pollForLearningData (fun _ => PollResponse.notFound) 60).attempts - 1)
        2000 ∧
    handleSubmitOutcome (fun _ => PollResponse.notFound) =
      (defaultLearningData, "dashboard") := by
  have h := pollForLearningData_spec (fun _ => PollResponse.notFound) 60 (by norm_num)
  exact ⟨h.1, h.2.1, h.2.2 rfl⟩

/-!
Claim C6: sliding-window rate limiter.
-/

/-- Sequencing lemma for `checkRateLimit`: starting from a state whose
recorded timestamps for the identifier all lie within the window of
every upcoming check time, and with nondecreasing check times that all
fit in one window, the i-th check succeeds exactly while the total
recorded count stays below the limit. -/
lemma runRateChecks_seq (identifier : String) (limit windowSec : Nat) :
    ∀ (times : List Int) (m : RateMap) (rec : List Int),
      (m identifier).getD [] = rec →
      (∀ ts ∈ rec, ∀ t ∈ times, ts ≤ t ∧ t - ts < (windowSec : Int) * 1000) →
      times.Pairwise (fun a b => a ≤ b ∧ b - a < (windowSec : Int) * 1000) →
      (runRateChecks identifier limit windowSec m times).1 =
        (List.range times.length).map (fun i => decide (rec.length + i < limit)) := by
  intro times
  induction times with
  | nil => intro m rec _ _ _; rfl
  | cons t ts ih =>
    intro m rec hm hrec hpair
    have hfilt : rec.filter (fun ts' => decide (t - ts' < (windowSec : Int) * 1000)) = rec := by
      rw [List.filter_eq_self]
      intro a ha
      simpa using (hrec a ha t (by simp)).2
    rw [List.pairwise_cons] at hpair
    simp only [runRateChecks, checkRateLimit, hm, hfilt]
    by_cases hlim : limit ≤ rec.length
    · rw [if_pos hlim]
      show false :: (runRateChecks identifier limit windowSec
          (fun k => if k = identifier then some rec else m k) ts).1 =
        List.map (fun i => decide (rec.length + i < limit)) (List.range (t :: ts).length)
      rw [ih (fun k => if k = identifier then some rec else m k) rec (by simp)
        (fun a ha t' ht' => hrec a ha t' (by simp [ht'])) hpair.2]
      rw [List.length_cons, List.range_succ_eq_map, List.map_cons, List.map_map]
      congr 1
      · exact (decide_eq_false (by omega)).symm
      · apply List.map_congr_left
        intro i _
        simp only [Function.comp_apply]
        rw [decide_eq_decide]
        omega
    · rw [if_neg hlim]
      show true :: (runRateChecks identifier limit windowSec
          (fun k => if k = identifier then some (rec ++ [t])
            else if k = identifier then some rec else m k) ts).1 =
        List.map (fun i => decide (rec.length + i < limit)) (List.range (t :: ts).length)
      have hrec2 : ∀ a ∈ rec ++ [t], ∀ t' ∈ ts,
          a ≤ t' ∧ t' - a < (windowSec : Int) * 1000 := by
        intro a ha t' ht'
        rcases List.mem_append.mp ha with hmem | hmem
        · exact hrec a hmem t' (by simp [ht'])
        · have : a = t := by simpa using hmem
          subst this
          exact hpair.1 t' ht'
      rw [ih (fun k => if k = identifier then some (rec ++ [t])
            else if k = identifier then some rec else m k) (rec ++ [t]) (by simp)
        hrec2 hpair.2]
      rw [List.length_cons, List.range_succ_eq_map, List.map_cons, List.map_map]
      congr 1
      · exact (decide_eq_true (by omega)).symm
      · apply List.map_congr_left
        intro i _
        simp only [Function.comp_apply, List.length_append, List.length_cons,
          List.length_nil]
        rw [decide_eq_decide]
        omega

/-- C6: from an empty state, checks within one window succeed exactly
`limit` times and fail from the `limit + 1`-th on; once every recorded
timestamp has fallen out of the window a new check succeeds again; a
rejected check leaves the recorded timestamps unchanged. -/
theorem checkRateLimit_spec (identifier : String) (limit windowSec : Nat)
    (times : List Int)
    (hwin : times.Pairwise (fun a b => a ≤ b ∧ b - a < (windowSec : Int) * 1000)) :
    (runRateChecks identifier limit windowSec emptyRateMap times).1 =
      (List.range times.length).map (fun i => decide (i < limit)) ∧
    (∀ (m : RateMap) (now : Int), 1 ≤ limit →
      (∀ ts ∈ (m identifier).getD [], (windowSec : Int) * 1000 ≤ now - ts) →
      (checkRateLimit m identifier limit windowSec now).1 = true) ∧
    (∀ (m : RateMap) (now : Int),
      (checkRateLimit m identifier limit windowSec now).1 = false →
      ((checkRateLimit m identifier limit windowSec now).2) identifier =
        some ((m identifier).getD [])) := by
  refine ⟨?_, ?_, ?_⟩
  · have h := runRateChecks_seq identifier limit windowSec times emptyRateMap []
      (by simp [emptyRateMap]) (by simp) hwin
    simpa using h
  · intro m now hlim hold
    have hfilt : ((m identifier).getD []).filter
        (fun ts' => decide (now - ts' < (windowSec : Int) * 1000)) = [] := by
      rw [List.filter_eq_nil_iff]
      intro a ha
      have := hold a ha
      simp
      omega
    simp only [checkRateLimit, hfilt]
    rw [if_neg (by simp; omega)]
  · intro m now h
    simp only [checkRateLimit] at h ⊢
    by_cases hlim : limit ≤ (((m identifier).getD []).filter
        (fun ts' => decide (now - ts' < (windowSec : Int) * 1000))).length
    · rw [if_pos hlim] at h ⊢
      simp
    · rw [if_neg hlim] at h
      exact absurd h (by simp)

/-- C6 witness: identifier with limit 2 and a 60-second window; three
checks at times 0, 1, 2 give allow, allow, deny; a rejected check
records nothing; after the window has fully elapsed a check succeeds
again. -/
theorem checkRateLimit_spec_witness :
    (runRateChecks "c" 2 60 emptyRateMap [0, 1, 2]).1 = [true, true, false] ∧
    ((checkRateLimit (runRateChecks "c" 2 60 emptyRateMap [0, 1, 2]).2 "c" 2 60 2).2) "c" =
      some (((runRateChecks "c" 2 60 emptyRateMap [0, 1, 2]).2 "c").getD []) ∧
    (checkRateLimit (runRateChecks "c" 2 60 emptyRateMap [0, 1, 2]).2 "c" 2 60 100000).1 =
      true := by
  have h := checkRateLimit_spec "c" 2 60 [0, 1, 2] (by decide)
  refine ⟨h.1.trans (by decide), ?_, ?_⟩
  · exact h.2.2 _ 2 (by decide)
  · exact h.2.1 _ 100000 (by decide) (by decide)

/-!
Claim C10: renumbering and fallback defaults of the transformed
learning path.
-/

/-- The module number assigned by the transformation is one more than
the 0-based position. -/
lemma transformModule_number (idx : Nat) (m : Json) (mr : ModuleRecord)
    (h : transformModule idx m = .ok mr) : mr.module_number = idx + 1 := by
  unfold transformModule at h
  repeat' split at h
  all_goals first
    | exact Except.noConfusion h
    | (injection h with h; subst h; rfl)

/-- The transformed module title is the payload title with the empty
string as fallback. -/
lemma transformModule_title (idx : Nat) (m : Json) (mr : ModuleRecord)
    (h : transformModule idx m = .ok mr) :
    mr.module_title = jsOr (getField m "title") (Json.str "") := by
  unfold transformModule at h
  repeat' split at h
  all_goals try exact Except.noConfusion h
  injection h with h
  subst h
  cases m <;> simp_all [jsField]

/-- The transformed resource link is the payload link with the hash
fallback. -/
lemma transformResource_link (r : Json) (rr : ResourceRecord)
    (h : transformResource r = .ok rr) :
    rr.link = jsOr (getField r "link") (Json.str "#") := by
  unfold transformResource at h
  repeat' split at h
  all_goals try exact Except.noConfusion h
  injection h with h
  subst h
  cases r <;> simp_all [jsField]

/-- The index-carrying module transformation preserves length and
numbers the module at position `i` with `idx + i + 1`. -/
lemma transformModules_spec :
    ∀ (elems : List Json) (idx : Nat) (mods : List ModuleRecord),
      transformModules elems idx = .ok mods →
      mods.length = elems.length ∧
      ∀ i (hi : i < mods.length), (mods.get ⟨i, hi⟩).module_number = idx + i + 1 := by
  intro elems
  induction elems with
  | nil =>
    intro idx mods h
    injection h with h
    subst h
    exact ⟨rfl, fun i hi => absurd hi (by simp)⟩
  | cons m ms ih =>
    intro idx mods h
    unfold transformModules at h
    cases hmr : transformModule idx m with
    | error e => rw [hmr] at h; exact Except.noConfusion h
    | ok mr =>
      rw [hmr] at h
      cases hrest : transformModules ms (idx + 1) with
      | error e => rw [hrest] at h; exact Except.noConfusion h
      | ok rest =>
        rw [hrest] at h
        injection h with h
        subst h
        obtain ⟨hlen, hidx⟩ := ih (idx + 1) rest hrest
        refine ⟨by simp [hlen], ?_⟩
        intro i hi
        cases i with
        | zero => simpa using transformModule_number idx m mr hmr
        | succ j =>
          have hj : j < rest.length := by simpa using hi
          have := hidx j hj
          simpa [Nat.add_comm, Nat.add_assoc, Nat.add_left_comm] using this

/-- A successful transformation builds its learning path with
`transformModules` starting at index 0. -/
lemma transformN8nData_path (x : Json) (r : TransformedRecord)
    (h : transformN8nData x = .ok r) :
    ∃ elems, transformModules elems 0 = .ok r.learning_path := by
  unfold transformN8nData at h
  repeat' split at h
  all_goals try exact Except.noConfusion h
  injection h with h
  subst h
  exact ⟨_, by assumption⟩

/-- The record a successful POST stores is the output of
`transformN8nData` on the unwrapped payload. -/
lemma post_stored_ok (body : Json) (store : LearningStore) (now : Int)
    (k : String) (r : TransformedRecord)
    (h : (learningCallbackPOST body store now).stored = some (k, r)) :
    transformN8nData (callbackTransformArg body) = .ok r := by
  unfold learningCallbackPOST at h
  cases hC : learningCallbackPOSTCore body store now with
  | error e => rw [hC] at h; simp at h
  | ok outcome =>
    rw [hC] at h
    unfold learningCallbackPOSTCore at hC
    repeat' split at hC
    all_goals try exact Except.noConfusion hC
    all_goals (injection hC with hC; subst hC; simp at h)
    obtain ⟨-, h2⟩ := h
    subst h2
    assumption

/-- C10: for every payload accepted by the webhook, the stored learning
path is renumbered consecutively from 1 in payload order; a module
without a title field gets the empty string, and a resource without a
link field gets the fallback link. -/
theorem transform_numbering_defaults :
    (∀ (body : Json) (store : LearningStore) (now : Int) (k : String)
      (r : TransformedRecord),
      (learningCallbackPOST body store now).stored = some (k, r) →
      ∀ i (hi : i < r.learning_path.length),
        (r.learning_path.get ⟨i, hi⟩).module_number = i + 1) ∧
    (∀ (idx : Nat) (m : Json) (mr : ModuleRecord),
      transformModule idx m = .ok mr → getField m "title" = none →
      mr.module_title = Json.str "") ∧
    (∀ (res : Json) (rr : ResourceRecord),
      transformResource res = .ok rr → getField res "link" = none →
      rr.link = Json.str "#") := by
  refine ⟨?_, ?_, ?_⟩
  · intro body store now k r h i hi
    obtain ⟨elems, helems⟩ := transformN8nData_path _ r (post_stored_ok body store now k r h)
    have := (transformModules_spec elems 0 r.learning_path helems).2 i hi
    simpa using this
  · intro idx m mr h ht
    rw [transformModule_title idx m mr h, ht]
    rfl
  · intro res rr h hl
    rw [transformResource_link res rr h, hl]
    rfl

/-- C10 witness: the sample callback payload stores a single module
numbered 1; a module object with no title gets the empty title; a
resource object with no link gets the hash link. -/
theorem transform_numbering_defaults_witness :
    (([⟨1, Json.str "M1", Json.str "", Json.str "", []⟩] :
        List ModuleRecord).get ⟨0, by norm_num⟩).module_number = 0 + 1 ∧
    (ModuleRecord.module_title ⟨5 + 1, Json.str "", Json.str "", Json.str "", []⟩) =
      Json.str "" ∧
    (ResourceRecord.link ⟨Json.str "", Json.str "", Json.str "#", Json.str "",
      Json.str ""⟩) = Json.str "#" := by
  refine ⟨?_, ?_, ?_⟩
  · exact transform_numbering_defaults.1
      (Json.obj [("dataId", Json.str "alice@example.com_1700000000000"),
        ("email", Json.str "bob@x.com"),
        ("learningData", Json.obj [("learning_path",
          Json.arr [Json.obj [("title", Json.str "M1")]])])])
      [] 0 "alice@example.com"
      ⟨some (Json.str "bob@x.com"), none,
        [⟨1, Json.str "M1", Json.str "", Json.str "", []⟩],
        ⟨Json.str "Begin with Module 1 this week.",
          Json.str "Dedicate time each day to learning.",
          Json.str "Keep track of your progress."⟩, [], none⟩
      (by rfl) 0 (by norm_num)
  · exact transform_numbering_defaults.2.1 5 (Json.obj [])
      ⟨5 + 1, Json.str "", Json.str "", Json.str "", []⟩ (by rfl) (by rfl)
  · exact transform_numbering_defaults.2.2 (Json.obj [])
      ⟨Json.str "", Json.str "", Json.str "#", Json.str "", Json.str ""⟩
      (by rfl) (by rfl)

/-!
Claim C3: webhook response to a payload without `learningData`.
-/

/-- C3 counterexample: a payload with no `learningData` substructure is
answered with HTTP 500 (`Failed to process learning data`), not with a
400 structural-validation error; nothing is stored. -/
theorem missing_learningData_is_500 :
    (learningCallbackPOST (Json.obj [("email", Json.str "a@b.c")]) [] 0).status = 500 ∧
    (learningCallbackPOST (Json.obj [("email", Json.str "a@b.c")]) [] 0).error =
      some "Failed to process learning data" ∧
    (learningCallbackPOST (Json.obj [("email", Json.str "a@b.c")]) [] 0).stored = none ∧
    (learningCallbackPOST (Json.obj [("email", Json.str "a@b.c")]) [] 0).store = [] :=
  ⟨rfl, rfl, rfl, rfl⟩

/-- C3 (amended): for every payload whose unwrapped element lacks a
truthy `learningData` substructure, the POST handler stores nothing and
leaves the store unchanged, but the thrown transform error is caught by
the generic catch clause, so the response carries HTTP status 500 with
the generic failure message, not a 400 structural-validation error. -/
theorem missing_learningData_spec (body : Json) (store : LearningStore) (now : Int)
    (h : transformN8nData (callbackTransformArg body) =
      .error "Invalid data structure from n8n") :
    (learningCallbackPOST body store now).status = 500 ∧
    (learningCallbackPOST body store now).error =
      some "Failed to process learning data" ∧
    (learningCallbackPOST body store now).stored = none ∧
    (learningCallbackPOST body store now).store = store := by
  unfold learningCallbackPOST
  cases hC : learningCallbackPOSTCore body store now with
  | error e => exact ⟨rfl, rfl, rfl, rfl⟩
  | ok outcome =>
    exfalso
    unfold learningCallbackPOSTCore at hC
    repeat' split at hC
    all_goals simp_all

/-- C3 witness: the empty-object payload lacks `learningData`; the
response status is 500 and nothing is stored. -/
theorem missing_learningData_spec_witness :
    (learningCallbackPOST (Json.obj []) [] 0).status = 500 ∧
    (learningCallbackPOST (Json.obj []) [] 0).stored = none ∧
    (learningCallbackPOST (Json.obj []) [] 0).store = [] := by
  have h := missing_learningData_spec (Json.obj []) [] 0 (by rfl)
  exact ⟨h.1, h.2.2.1, h.2.2.2⟩

/-!
Claim C2: webhook storage-key resolution.
-/

/-- The split of a list on a character never produces the empty list of
segments. -/
lemma splitOnChar_ne_nil (sep : Char) : ∀ l : List Char, splitOnChar sep l ≠ [] := by
  intro l
  cases l with
  | nil => simp [splitOnChar]
  | cons c cs =>
    simp only [splitOnChar]
    by_cases hc : c = sep
    · simp [hc]
    · rw [if_neg hc]
      cases splitOnChar sep cs <;> simp

lemma splitOnChar_append_sep (sep : Char) :
    ∀ xs ys : List Char,
      splitOnChar sep (xs ++ sep :: ys) = splitOnChar sep xs ++ splitOnChar sep ys := by
  intro xs
  induction xs with
  | nil => intro ys; simp [splitOnChar]
  | cons c cs ih =>
    intro ys
    by_cases hc : c = sep
    · show splitOnChar sep (c :: (cs ++ sep :: ys)) = _
      simp only [splitOnChar, if_pos hc, ih]
      rfl
    · show splitOnChar sep (c :: (cs ++ sep :: ys)) = _
      simp only [splitOnChar, if_neg hc, ih]
      cases hs : splitOnChar sep cs with
      | nil => exact absurd hs (splitOnChar_ne_nil sep cs)
      | cons s rest => simp

lemma joinWithChar_splitOnChar (sep : Char) :
    ∀ l : List Char, joinWithChar sep (splitOnChar sep l) = l := by
  intro l
  induction l with
  | nil => rfl
  | cons c cs ih =>
    by_cases hc : c = sep
    · subst hc
      simp only [splitOnChar, if_pos rfl]
      cases hs : splitOnChar c cs with
      | nil => exact absurd hs (splitOnChar_ne_nil c cs)
      | cons s rest =>
        rw [hs] at ih
        simp only [joinWithChar]
        rw [ih]
        rfl
    · simp only [splitOnChar, if_neg hc]
      cases hs : splitOnChar sep cs with
      | nil => exact absurd hs (splitOnChar_ne_nil sep cs)
      | cons s rest =>
        rw [hs] at ih
        cases rest with
        | nil => simp only [joinWithChar] at ih ⊢; rw [ih]
        | cons s2 rest2 =>
          simp only [joinWithChar] at ih ⊢
          rw [List.cons_append, ih]

/-- A list without the separator splits into itself alone. -/
lemma splitOnChar_no_sep (sep : Char) :
    ∀ l : List Char, (∀ c ∈ l, c ≠ sep) → splitOnChar sep l = [l] := by
  intro l
  induction l with
  | nil => intro _; rfl
  | cons c cs ih =>
    intro h
    have hc : c ≠ sep := h c (by simp)
    simp only [splitOnChar, if_neg hc, ih (fun d hd => h d (by simp [hd]))]

/-- A decimal digit is not an underscore. -/
lemma digit_ne_underscore (c : Char) (h : c.isDigit = true) : c ≠ underscoreChar := by
  intro hc
  subst hc
  simp [Char.isDigit] at h
  exact absurd h (by decide)

/-- Stripping a trailing underscore-plus-digits suffix restores the
bare identifier. -/
lemma extractEmail_strip (e d : String) (hd : d ≠ "")
    (hdig : ∀ c ∈ d.toList, c.isDigit = true) :
    extractEmailFromRequestId (e ++ "_" ++ d) = e := by
  have htl : (e ++ "_" ++ d).toList = e.toList ++ underscoreChar :: d.toList := by
    show (e ++ "_" ++ d).data = e.data ++ underscoreChar :: d.data
    rw [String.data_append, String.data_append, List.append_assoc]
    rfl
  have hdl : d.toList ≠ [] := by
    intro hc
    apply hd
    cases d with
    | mk l => simp [String.toList] at hc; simp [hc]
  unfold extractEmailFromRequestId
  rw [htl, splitOnChar_append_sep,
    splitOnChar_no_sep underscoreChar d.toList
      (fun c hc => digit_ne_underscore c (hdig c hc))]
  cases hs : (splitOnChar underscoreChar e.toList).reverse with
  | nil =>
    exact absurd (List.reverse_eq_nil_iff.mp hs)
      (splitOnChar_ne_nil underscoreChar e.toList)
  | cons s rest =>
    have hrev : (splitOnChar underscoreChar e.toList ++ [d.toList]).reverse =
        d.toList :: (s :: rest) := by
      rw [List.reverse_append, hs]
      rfl
    simp only [hrev]
    rw [if_pos ⟨by simp, hdl, by simpa using hdig⟩]
    have hback : (s :: rest).reverse = splitOnChar underscoreChar e.toList := by
      rw [← hs, List.reverse_reverse]
    rw [hback, joinWithChar_splitOnChar]
    rfl

/-- The key a successful POST stores under is the resolved identifier
of the payload. -/
lemma post_stored_key (body : Json) (store : LearningStore) (now : Int)
    (k : String) (r : TransformedRecord)
    (h : (learningCallbackPOST body store now).stored = some (k, r)) :
    k = resolvedDataId body r now := by
  unfold learningCallbackPOST at h
  cases hC : learningCallbackPOSTCore body store now with
  | error e => rw [hC] at h; simp at h
  | ok outcome =>
    rw [hC] at h
    unfold learningCallbackPOSTCore at hC
    repeat' split at hC
    all_goals try exact Except.noConfusion hC
    all_goals (injection hC with hC; subst hC; simp at h)
    obtain ⟨h1, h2⟩ := h
    subst h2
    exact h1.symm

/-- C2: the storage key of an accepted callback is the first nonempty
string among the ordered candidates — engine data identifier, top-level
`dataId`, nested and top-level `requestId`, transformed email, raw
payload email, nested `learningData.email`, profile-level emails —
normalized by stripping a trailing underscore-plus-digits suffix; in
particular the documented composite `dataId` payload is stored under,
and poll-retrievable (by bare and composite identifier alike) as,
exactly `alice@example.com`. -/
theorem webhook_identifier_resolution :
    (∀ e d : String, d ≠ "" → (∀ c ∈ d.toList, c.isDigit = true) →
      extractEmailFromRequestId (e ++ "_" ++ d) = e) ∧
    (∀ (body : Json) (store : LearningStore) (now : Int) (k : String)
      (r : TransformedRecord),
      (learningCallbackPOST body store now).stored = some (k, r) →
      k = resolvedDataId body r now) ∧
    (learningCallbackPOST samplePayload [] 0).stored =
      some ("alice@example.com", sampleRecord) ∧
    (learningCallbackPOST samplePayload [] 0).dataId = some "alice@example.com" ∧
    (learningCallbackGET (some "alice@example.com")
      (learningCallbackPOST samplePayload [] 0).store 5).status = 200 ∧
    (learningCallbackGET (some "alice@example.com")
      (learningCallbackPOST samplePayload [] 0).store 5).record = some sampleRecord ∧
    (learningCallbackGET (some "alice@example.com_1700000000000")
      (learningCallbackPOST samplePayload [] 0).store 5).record = some sampleRecord :=
  ⟨extractEmail_strip, post_stored_key, rfl, rfl, rfl, rfl, rfl⟩

/-- C2 witness: the composite example identifier strips to the bare
email, and the sample POST run stores under that resolved key. -/
theorem webhook_identifier_resolution_witness :
    extractEmailFromRequestId ("alice@example.com" ++ "_" ++ "1700000000000") =
      "alice@example.com" ∧
    "alice@example.com" = resolvedDataId samplePayload sampleRecord 0 := by
  refine ⟨webhook_identifier_resolution.1 "alice@example.com" "1700000000000"
    (by decide) (by decide), ?_⟩
  exact webhook_identifier_resolution.2.1 samplePayload [] 0 "alice@example.com"
    sampleRecord (by rfl)

/-!
Claim C8: caching behaviour of the summarize handler without a video
identifier.
-/

set_option maxHeartbeats 2000000 in
/-- C8 counterexample: a valid summarize request without a video
identifier succeeds but stores nothing in the cache (no content
fingerprint is used), and an identical repeat request invokes the
upstream endpoint again instead of hitting a cache. -/
theorem summarize_no_videoId_not_cached :
    (summarizeHandler sampleEnv sampleSummarizeReq emptyRateMap [] okOutcome 0).response.status
      = 200 ∧
    (summarizeHandler sampleEnv sampleSummarizeReq emptyRateMap [] okOutcome 0).response.cachedFlag
      = some false ∧
    (summarizeHandler sampleEnv sampleSummarizeReq emptyRateMap [] okOutcome 0).cache = [] ∧
    (summarizeHandler sampleEnv sampleSummarizeReq emptyRateMap [] okOutcome 0).upstreamAttempts
      = 1 ∧
    (summarizeHandler sampleEnv sampleSummarizeReq
      (summarizeHandler sampleEnv sampleSummarizeReq emptyRateMap [] okOutcome 0).rate
      [] okOutcome 1).upstreamAttempts = 1 ∧
    (summarizeHandler sampleEnv sampleSummarizeReq
      (summarizeHandler sampleEnv sampleSummarizeReq emptyRateMap [] okOutcome 0).rate
      [] okOutcome 1).response.cachedFlag = some false :=
  ⟨by rfl, by rfl, by rfl, by rfl, by rfl, by rfl⟩

set_option maxHeartbeats 2000000 in
/-- C8 (amended): when the request supplies no video identifier the
handler neither reads nor writes the cache: the cache is unchanged by
the call, and a successful response is never served from cache
(`cached: false`) and always costs at least one upstream attempt —
results are cached only under a key derived from a supplied video
identifier, with no content-fingerprint fallback. -/
theorem summarize_no_videoId_spec (env : SummarizeEnv) (req : SummarizeRequest)
    (rate : RateMap) (cache : CacheMap SummaryResult)
    (outcomes : Nat → FetchOutcome) (now : Int)
    (hvid : req.videoId = none) :
    (summarizeHandler env req rate cache outcomes now).cache = cache ∧
    ((summarizeHandler env req rate cache outcomes now).response.status = 200 →
      (summarizeHandler env req rate cache outcomes now).response.cachedFlag = some false ∧
      1 ≤ (summarizeHandler env req rate cache outcomes now).upstreamAttempts) := by
  have hcall := (callGeminiAux_inv outcomes 2 3 0 [] (by omega) (by omega) (by simp)).1.1
  simp only [summarizeHandler, hvid]
  constructor
  · repeat' split
    all_goals rfl
  · intro h200
    constructor
    · revert h200
      repeat' split
      all_goals intro h200
      all_goals first | rfl | (exact absurd h200 (by norm_num))
    · revert h200
      repeat' split
      all_goals intro h200
      all_goals first | exact hcall | (exact absurd h200 (by norm_num))

/-- C8 witness: the sample request without a video identifier leaves
the cache untouched, reports a non-cached result, and costs one
upstream attempt. -/
theorem summarize_no_videoId_spec_witness :
    (summarizeHandler sampleEnv sampleSummarizeReq emptyRateMap [] okOutcome 0).cache = [] ∧
    (summarizeHandler sampleEnv sampleSummarizeReq emptyRateMap [] okOutcome 0).response.cachedFlag
      = some false ∧
    1 ≤ (summarizeHandler sampleEnv sampleSummarizeReq emptyRateMap [] okOutcome 0).upstreamAttempts := by
  have h := summarize_no_videoId_spec sampleEnv sampleSummarizeReq emptyRateMap []
    okOutcome 0 rfl
  have h2 := h.2 rfl
  exact ⟨h.1, h2.1, h2.2⟩

end EduuJoy
